import Mathlib

/-!
Verification of the conversational recommendation engine
(`chatbot.py` / `chabot.py` / `conversation_memory_manager.py` / `data_processor.py`).

Python strings are modelled as `List Char` (`Str`), Python dicts with a fixed
key set as structures, Python `datetime.now()` stamps as `Nat` values supplied
by the environment, and the external generative model / JSON parser as oracle
inputs (a failing call is `none`, mirroring a raised-and-caught exception).
Python `re` patterns used by the source are translated pattern-by-pattern into
executable scanning functions with leftmost-match semantics; `\d` and `\s` are
modelled as ASCII digit / whitespace classes.
-/

/-- Python `str` as a list of characters. -/
abbrev Str := List Char

/-- The apostrophe character (used inside several source string literals). -/
def apos : Char := Char.ofNat 39

/-- Opening curly brace character. -/
def lbr : Char := Char.ofNat 123

/-- Closing curly brace character. -/
def rbr : Char := Char.ofNat 125

/-- Python `str.lower` (ASCII model, matching the engine's ASCII keyword sets). -/
def pyLower (s : Str) : Str := s.map Char.toLower

/-- Python whitespace class (`str.strip` / `str.split()` / regex `\s`). -/
def pyIsSpace (c : Char) : Bool :=
  c = ' ' || c = '\t' || c = '\n' || c = '\r' || c = Char.ofNat 11 || c = Char.ofNat 12

/-- Python `str.strip()`: drop leading and trailing whitespace. -/
def pyStrip (s : Str) : Str :=
  ((s.dropWhile pyIsSpace).reverse.dropWhile pyIsSpace).reverse

/-- Regex `\d` (ASCII model). -/
def isDigitC (c : Char) : Bool := '0' ≤ c && c ≤ '9'

/-- Python's substring test `needle in hay` (empty needle is contained everywhere). -/
def containsSub (needle : Str) : Str → Bool
  | [] => needle.isEmpty
  | c :: t => needle.isPrefixOf (c :: t) || containsSub needle t

/-- Helper for `pyWords`: accumulate the current word (reversed) while scanning. -/
def pyWordsAux : Str → Str → List Str
  | [], acc => if acc.isEmpty then [] else [acc.reverse]
  | c :: t, acc =>
      if pyIsSpace c then
        if acc.isEmpty then pyWordsAux t [] else acc.reverse :: pyWordsAux t []
      else pyWordsAux t (c :: acc)

/-- Python `str.split()` with no argument: split on whitespace runs, dropping empties. -/
def pyWords (s : Str) : List Str := pyWordsAux s []

/-- `'that\'s all'` from the exit-phrase list of `check_exit_intent`. -/
def thatsAll : Str := "that".toList ++ apos :: "s all".toList

/-- The fixed exit-phrase list of `check_exit_intent` (`chatbot.py` lines 52-53,
identical in `chabot.py` lines 58-59). -/
def exit_phrases : List Str :=
  ["stop".toList, "exit".toList, "quit".toList, "goodbye".toList, "bye".toList,
   thatsAll, "thank you bye".toList, "end conversation".toList, "thanks bye".toList]

/-- `ProfessionalSalesAI.check_exit_intent` (`chatbot.py` lines 50-63): exact match
against the exit-phrase list, or phrase contained while the message has ≤ 4 words. -/
def check_exit_intent (text : Str) : Bool :=
  let text_lower := pyStrip (pyLower text)
  if exit_phrases.contains text_lower then true
  else exit_phrases.any fun phrase =>
    containsSub phrase text_lower && (pyWords text_lower).length ≤ 4

/-- `"I'd like to stop by the beach"`. -/
def stopByTheBeach : Str := "I".toList ++ apos :: "d like to stop by the beach".toList

/-- C9: the exit check returns `true` exactly when the lowercased stripped text
is one of the fixed exit phrases, or contains one while the whole message has at
most 4 words; in particular `"stop"`, `"bye"`, `"that's all"` are exits while
`"I'd like to stop by the beach"` is not. -/
theorem c9_exit_phrase_exactness :
    (∀ text : Str,
      check_exit_intent text = true ↔
        (pyStrip (pyLower text) ∈ exit_phrases ∨
          ∃ phrase ∈ exit_phrases,
            containsSub phrase (pyStrip (pyLower text)) = true ∧
              (pyWords (pyStrip (pyLower text))).length ≤ 4)) ∧
    check_exit_intent "stop".toList = true ∧
    check_exit_intent "bye".toList = true ∧
    check_exit_intent thatsAll = true ∧
    check_exit_intent stopByTheBeach = false := by
  refine ⟨fun text => ?_, by decide, by decide, by decide, by decide⟩
  unfold check_exit_intent
  by_cases hmem : exit_phrases.contains (pyStrip (pyLower text)) = true
  · simp only [hmem, if_true, true_iff]
    exact Or.inl (List.elem_iff.mp hmem)
  · have hfalse : exit_phrases.contains (pyStrip (pyLower text)) = false := by
      simpa using hmem
    simp only [hfalse, Bool.false_eq_true, if_false, List.any_eq_true, Bool.and_eq_true,
      decide_eq_true_eq]
    constructor
    · rintro ⟨p, hp, hsub, hlen⟩
      exact Or.inr ⟨p, hp, hsub, hlen⟩
    · rintro (h | ⟨p, hp, hsub, hlen⟩)
      · exact absurd (List.elem_iff.mpr h) hmem
      · exact ⟨p, hp, hsub, hlen⟩

/-! ## Preference extraction (`_extract_user_preferences`, `chatbot.py` lines 505-534) -/

/-- Per-client inferred preferences (`user_profile` sub-dict of the conversation data,
`conversation_memory_manager.py` lines 78-85). -/
structure UserProfile where
  interests : List Str
  budget_range : Str
  preferred_locations : List Str
  mentioned_preferences : List Str
  conversation_style : Str
  conversation_stage : Str
deriving DecidableEq

/-- The fixed interest-keyword table of `_extract_user_preferences`. -/
def interest_keywords : List (Str × List Str) :=
  [("adventure".toList, ["adventure".toList, "thrill".toList, "exciting".toList,
      "action".toList, "trek".toList, "climb".toList, "raft".toList, "paragliding".toList]),
   ("relaxation".toList, ["relax".toList, "peaceful".toList, "calm".toList, "quiet".toList,
      "serene".toList, "spa".toList, "yoga".toList, "meditation".toList]),
   ("culture".toList, ["culture".toList, "historical".toList, "traditional".toList,
      "heritage".toList, "temple".toList, "monument".toList]),
   ("nature".toList, ["nature".toList, "outdoor".toList, "forest".toList, "mountain".toList,
      "beach".toList, "wildlife".toList, "camping".toList]),
   ("romantic".toList, ["romantic".toList, "honeymoon".toList, "couple".toList,
      "anniversary".toList, "date".toList, "couples".toList]),
   ("luxury".toList, ["luxury".toList, "premium".toList, "exclusive".toList, "vip".toList,
      "5 star".toList, "resort".toList])]

/-- The fixed location keyword list of `_extract_user_preferences`. -/
def location_keywords : List Str :=
  ["goa".toList, "kerala".toList, "himachal".toList, "rajasthan".toList,
   "mumbai".toList, "delhi".toList, "bangalore".toList]

/-- Scan forward for the first digit reachable without crossing a newline
(regex `.` does not match `'\n'`), returning the maximal digit run there. -/
def firstDigitsSameLine : Str → Option Str
  | [] => none
  | c :: t =>
      if isDigitC c then some ((c :: t).takeWhile isDigitC)
      else if c = '\n' then none
      else firstDigitsSameLine t

/-- `re.search(r'budget.*?(\d+)', s)`, returning group 1: at the leftmost viable
occurrence of `"budget"`, the first digit run after it on the same line. -/
def searchBudgetNum : Str → Option Str
  | [] => none
  | c :: t =>
      if "budget".toList.isPrefixOf (c :: t) then
        match firstDigitsSameLine ((c :: t).drop 6) with
        | some d => some d
        | none => searchBudgetNum t
      else searchBudgetNum t

/-- Does `"budget"` occur ahead without crossing a newline first? (for `.*?budget`) -/
def budgetAheadSameLine : Str → Bool
  | [] => false
  | c :: t =>
      if "budget".toList.isPrefixOf (c :: t) then true
      else if c = '\n' then false
      else budgetAheadSameLine t

/-- `re.search(r'(\d+).*?budget', s)`, returning group 1: the maximal digit run at
the leftmost digit position that is followed by `"budget"` on the same line. -/
def searchNumBudget : Str → Option Str
  | [] => none
  | c :: t =>
      if isDigitC c then
        let run := (c :: t).takeWhile isDigitC
        if budgetAheadSameLine ((c :: t).drop run.length) then some run
        else searchNumBudget t
      else searchNumBudget t

/-- `re.search(r'₹\s*(\d+)', s)`, returning group 1. -/
def searchRupee : Str → Option Str
  | [] => none
  | c :: t =>
      if c = '₹' then
        let rest := t.dropWhile pyIsSpace
        match rest with
        | d :: _ => if isDigitC d then some (rest.takeWhile isDigitC) else searchRupee t
        | [] => searchRupee t
      else searchRupee t

/-- `re.search(r'rs\.?\s*(\d+)', s)`, returning group 1. -/
def searchRs : Str → Option Str
  | [] => none
  | c :: t =>
      if "rs".toList.isPrefixOf (c :: t) then
        let r1 := (c :: t).drop 2
        let r2 := match r1 with
          | '.' :: u => u
          | _ => r1
        let rest := r2.dropWhile pyIsSpace
        match rest with
        | d :: _ => if isDigitC d then some (rest.takeWhile isDigitC) else searchRs t
        | [] => searchRs t
      else searchRs t

/-- The `budget_patterns` loop of `_extract_user_preferences`: the four patterns are
tried in source order and the first one that matches anywhere wins (`break`). -/
def budget_patterns_search (input_lower : Str) : Option Str :=
  match searchBudgetNum input_lower with
  | some d => some d
  | none =>
    match searchNumBudget input_lower with
    | some d => some d
    | none =>
      match searchRupee input_lower with
      | some d => some d
      | none => searchRs input_lower

/-- Interest loop body: add the tag if any keyword occurs and the tag is absent. -/
def interestStep (input_lower : Str) (p : UserProfile) (ik : Str × List Str) : UserProfile :=
  if ik.2.any (fun keyword => containsSub keyword input_lower) then
    if p.interests.contains ik.1 then p
    else { p with interests := p.interests ++ [ik.1] }
  else p

/-- Location loop body: add the location if it occurs and is absent. -/
def locationStep (input_lower : Str) (p : UserProfile) (loc : Str) : UserProfile :=
  if containsSub loc input_lower then
    if p.preferred_locations.contains loc then p
    else { p with preferred_locations := p.preferred_locations ++ [loc] }
  else p

/-- `ProfessionalSalesAI._extract_user_preferences` (`chatbot.py` lines 505-534,
identical in `chabot.py` lines 430-462), acting on the profile component of the
conversation data. -/
def extract_user_preferences (user_input : Str) (p : UserProfile) : UserProfile :=
  let input_lower := pyLower user_input
  let p := interest_keywords.foldl (interestStep input_lower) p
  let p := match budget_patterns_search input_lower with
    | some d => { p with budget_range := '₹' :: d }
    | none => p
  let p := location_keywords.foldl (locationStep input_lower) p
  p

/-- One interest step only appends to the tag list and touches nothing else. -/
theorem interestStep_spec (il : Str) (p : UserProfile) (ik : Str × List Str) :
    (∃ t, (interestStep il p ik).interests = p.interests ++ t ∧
        (p.interests.Nodup → (interestStep il p ik).interests.Nodup)) ∧
      (interestStep il p ik).budget_range = p.budget_range ∧
      (interestStep il p ik).preferred_locations = p.preferred_locations := by
  unfold interestStep
  by_cases h1 : (ik.2.any fun keyword => containsSub keyword il) = true
  · simp only [h1, if_true]
    by_cases h2 : p.interests.contains ik.1 = true
    · simp only [h2, if_true]
      exact ⟨⟨[], by simp, fun h => h⟩, by trivial, by trivial⟩
    · simp only [h2, if_false]
      refine ⟨⟨[ik.1], by trivial, fun hnd => ?_⟩, by trivial, by trivial⟩
      have hperm : (p.interests ++ [ik.1]).Perm (ik.1 :: p.interests) :=
        List.perm_append_singleton _ _
      refine hperm.nodup_iff.mpr (List.nodup_cons.mpr ⟨fun hmem => ?_, hnd⟩)
      exact h2 (List.elem_iff.mpr hmem)
  · simp only [h1, if_false]
    exact ⟨⟨[], by simp, fun h => h⟩, by trivial, by trivial⟩

/-- One location step only appends to the location list and touches nothing else. -/
theorem locationStep_spec (il : Str) (p : UserProfile) (loc : Str) :
    (∃ t, (locationStep il p loc).preferred_locations = p.preferred_locations ++ t ∧
        (p.preferred_locations.Nodup → (locationStep il p loc).preferred_locations.Nodup)) ∧
      (locationStep il p loc).budget_range = p.budget_range ∧
      (locationStep il p loc).interests = p.interests := by
  unfold locationStep
  by_cases h1 : containsSub loc il = true
  · simp only [h1, if_true]
    by_cases h2 : p.preferred_locations.contains loc = true
    · simp only [h2, if_true]
      exact ⟨⟨[], by simp, fun h => h⟩, by trivial, by trivial⟩
    · simp only [h2, if_false]
      refine ⟨⟨[loc], by trivial, fun hnd => ?_⟩, by trivial, by trivial⟩
      have hperm : (p.preferred_locations ++ [loc]).Perm (loc :: p.preferred_locations) :=
        List.perm_append_singleton _ _
      refine hperm.nodup_iff.mpr (List.nodup_cons.mpr ⟨fun hmem => ?_, hnd⟩)
      exact h2 (List.elem_iff.mpr hmem)
  · simp only [h1, if_false]
    exact ⟨⟨[], by simp, fun h => h⟩, by trivial, by trivial⟩

/-- The interest fold only appends to the tag list and touches nothing else. -/
theorem interestFold_spec (il : Str) :
    ∀ (ks : List (Str × List Str)) (p : UserProfile),
      (∃ t, (ks.foldl (interestStep il) p).interests = p.interests ++ t ∧
          (p.interests.Nodup → (ks.foldl (interestStep il) p).interests.Nodup)) ∧
        (ks.foldl (interestStep il) p).budget_range = p.budget_range ∧
        (ks.foldl (interestStep il) p).preferred_locations = p.preferred_locations := by
  intro ks
  induction ks with
  | nil => exact fun p => ⟨⟨[], by simp, fun h => h⟩, rfl, rfl⟩
  | cons k ks ih =>
      intro p
      obtain ⟨⟨t0, ht0, hnd0⟩, hb0, hl0⟩ := interestStep_spec il p k
      obtain ⟨⟨t1, ht1, hnd1⟩, hb1, hl1⟩ := ih (interestStep il p k)
      refine ⟨⟨t0 ++ t1, ?_, fun hnd => hnd1 (hnd0 hnd)⟩, ?_, ?_⟩
      · simp only [List.foldl_cons, ht1, ht0, List.append_assoc]
      · simp only [List.foldl_cons, hb1, hb0]
      · simp only [List.foldl_cons, hl1, hl0]

/-- The location fold only appends to the location list and touches nothing else. -/
theorem locationFold_spec (il : Str) :
    ∀ (ls : List Str) (p : UserProfile),
      (∃ t, (ls.foldl (locationStep il) p).preferred_locations =
            p.preferred_locations ++ t ∧
          (p.preferred_locations.Nodup →
            (ls.foldl (locationStep il) p).preferred_locations.Nodup)) ∧
        (ls.foldl (locationStep il) p).budget_range = p.budget_range ∧
        (ls.foldl (locationStep il) p).interests = p.interests := by
  intro ls
  induction ls with
  | nil => exact fun p => ⟨⟨[], by simp, fun h => h⟩, rfl, rfl⟩
  | cons l ls ih =>
      intro p
      obtain ⟨⟨t0, ht0, hnd0⟩, hb0, hl0⟩ := locationStep_spec il p l
      obtain ⟨⟨t1, ht1, hnd1⟩, hb1, hl1⟩ := ih (locationStep il p l)
      refine ⟨⟨t0 ++ t1, ?_, fun hnd => hnd1 (hnd0 hnd)⟩, ?_, ?_⟩
      · simp only [List.foldl_cons, ht1, ht0, List.append_assoc]
      · simp only [List.foldl_cons, hb1, hb0]
      · simp only [List.foldl_cons, hl1, hl0]

/-- Single-call summary of `_extract_user_preferences`: tags and locations are
only appended to (and stay duplicate-free), the budget is overwritten exactly
when some budget pattern matches. -/
theorem extract_user_preferences_spec (input : Str) (p : UserProfile) :
    (∃ t, (extract_user_preferences input p).interests = p.interests ++ t ∧
        (p.interests.Nodup → (extract_user_preferences input p).interests.Nodup)) ∧
    (∃ t, (extract_user_preferences input p).preferred_locations =
          p.preferred_locations ++ t ∧
        (p.preferred_locations.Nodup →
          (extract_user_preferences input p).preferred_locations.Nodup)) ∧
    (extract_user_preferences input p).budget_range =
      (match budget_patterns_search (pyLower input) with
        | some d => '₹' :: d
        | none => p.budget_range) := by
  unfold extract_user_preferences
  obtain ⟨⟨ti, hti, hndi⟩, hbi, hli⟩ := interestFold_spec (pyLower input) interest_keywords p
  set p1 := interest_keywords.foldl (interestStep (pyLower input)) p with hp1
  cases hmatch : budget_patterns_search (pyLower input) with
  | none =>
      simp only [hmatch]
      obtain ⟨⟨tl, htl, hndl⟩, hbl, hll⟩ := locationFold_spec (pyLower input) location_keywords p1
      refine ⟨⟨ti, ?_, fun h => ?_⟩, ⟨tl, ?_, fun h => ?_⟩, ?_⟩
      · rw [hll, hti]
      · rw [hll]; exact hndi h
      · rw [htl, hli]
      · rw [htl, hli] at *; exact hndl (by rw [hli]; exact h)
      · rw [hbl, hbi]
  | some d =>
      simp only [hmatch]
      set p2 : UserProfile := { p1 with budget_range := '₹' :: d } with hp2
      obtain ⟨⟨tl, htl, hndl⟩, hbl, hll⟩ := locationFold_spec (pyLower input) location_keywords p2
      have hp2i : p2.interests = p1.interests := rfl
      have hp2l : p2.preferred_locations = p1.preferred_locations := rfl
      refine ⟨⟨ti, ?_, fun h => ?_⟩, ⟨tl, ?_, fun h => ?_⟩, ?_⟩
      · rw [hll, hp2i, hti]
      · rw [hll, hp2i]; exact hndi h
      · rw [htl, hp2l, hli]
      · rw [htl, hp2l, hli]
        have : p2.preferred_locations.Nodup := by rw [hp2l, hli]; exact h
        have := hndl this
        rwa [htl, hp2l, hli] at this
      · rw [hbl]

/-- Feeding a sequence of inputs through the extractor, as the orchestrator does
turn by turn. -/
def extract_over (inputs : List Str) (p : UserProfile) : UserProfile :=
  inputs.foldl (fun acc i => extract_user_preferences i acc) p

/-- C7: across any sequence of inputs, interest tags and preferred locations are
only ever appended (never removed) and stay deduplicated, while the budget equals
the value from the first matching pattern of the most recent input on which any
budget pattern matched (`'₹'` prefix included), or the initial value if none matched. -/
theorem c7_preference_monotonicity (inputs : List Str) (p : UserProfile) :
    (∃ t, (extract_over inputs p).interests = p.interests ++ t) ∧
    (∃ t, (extract_over inputs p).preferred_locations = p.preferred_locations ++ t) ∧
    (p.interests.Nodup → (extract_over inputs p).interests.Nodup) ∧
    (p.preferred_locations.Nodup → (extract_over inputs p).preferred_locations.Nodup) ∧
    (extract_over inputs p).budget_range =
      (match inputs.reverse.findSome? (fun i => budget_patterns_search (pyLower i)) with
        | some d => '₹' :: d
        | none => p.budget_range) := by
  induction inputs generalizing p with
  | nil => exact ⟨⟨[], by simp [extract_over]⟩, ⟨[], by simp [extract_over]⟩,
      fun h => h, fun h => h, rfl⟩
  | cons i rest ih =>
      obtain ⟨⟨t0, ht0, hnd0⟩, ⟨l0, hl0, hndl0⟩, hb0⟩ :=
        extract_user_preferences_spec i p
      obtain ⟨⟨t1, ht1⟩, ⟨l1, hl1⟩, hnd1, hndl1, hb1⟩ :=
        ih (extract_user_preferences i p)
      have hfold : extract_over (i :: rest) p =
          extract_over rest (extract_user_preferences i p) := rfl
      refine ⟨⟨t0 ++ t1, ?_⟩, ⟨l0 ++ l1, ?_⟩, fun h => ?_, fun h => ?_, ?_⟩
      · rw [hfold, ht1, ht0, List.append_assoc]
      · rw [hfold, hl1, hl0, List.append_assoc]
      · rw [hfold]; exact hnd1 (hnd0 h)
      · rw [hfold]; exact hndl1 (hndl0 h)
      · rw [hfold, hb1, List.reverse_cons, List.findSome?_append]
        cases hr : rest.reverse.findSome? (fun j => budget_patterns_search (pyLower j)) with
        | none =>
            simp only [Option.none_or, List.findSome?_cons, List.findSome?_nil]
            cases hi : budget_patterns_search (pyLower i) with
            | none => simpa [hi] using hb0
            | some d => simpa [hi] using hb0
        | some d => simp

/-- Default (empty) user profile (`_get_default_conversation_data`,
`conversation_memory_manager.py` lines 78-85). -/
def default_user_profile : UserProfile :=
  { interests := [], budget_range := [], preferred_locations := [],
    mentioned_preferences := [], conversation_style := "professional".toList,
    conversation_stage := "initial".toList }

/-- Witness for C7 at a concrete input sequence: one message mentioning an
adventure trip in Goa with budget 5000. -/
theorem c7_preference_monotonicity_witness :
    ([] : List Str).Nodup ∧
    (extract_over ["i want an adventure trip in goa, budget 5000".toList]
        default_user_profile).interests.Nodup ∧
    (extract_over ["i want an adventure trip in goa, budget 5000".toList]
        default_user_profile).budget_range = '₹' :: "5000".toList := by
  refine ⟨List.nodup_nil, ?_, ?_⟩
  · exact (c7_preference_monotonicity
      ["i want an adventure trip in goa, budget 5000".toList]
      default_user_profile).2.2.1 List.nodup_nil
  · exact ((c7_preference_monotonicity
      ["i want an adventure trip in goa, budget 5000".toList]
      default_user_profile).2.2.2.2).trans (by decide)

/-! ## Catalog index (`data_processor.py`): similarity scores and ranking -/

/-- `MAX_RESULTS` (`data_processor.py` line 29). -/
def MAX_RESULTS : Nat := 3

/-- `MAX_CONVERSATION_HISTORY` (`data_processor.py` line 31). -/
def MAX_CONVERSATION_HISTORY : Nat := 50

/-- One catalog record as stored in the index metadata (`process_dataframe`,
`data_processor.py` lines 74-84). -/
structure ExpMeta where
  id : Str
  title : Str
  description : Str
  category : Str
  location : Str
  budget : Str
  source_row : Int
deriving DecidableEq

/-- One raw hit as reported by the underlying index for a query: the stored
record plus the index's distance.  Real numbers are modelled by `ℚ`. -/
structure RawResult where
  id : Str
  document : Str
  metadata : ExpMeta
  distance : ℚ
deriving DecidableEq

/-- One formatted search result (`search_experiences`, `data_processor.py`
lines 180-186). -/
structure SearchResult where
  id : Str
  document : Str
  metadata : ExpMeta
  distance : ℚ
  similarity_score : ℚ
deriving DecidableEq

/-- Round-half-to-even to an integer (Python `round` tie-breaking). -/
def roundHalfEven (q : ℚ) : ℤ :=
  let f := ⌊q⌋
  let r := q - (f : ℚ)
  if r < 1 / 2 then f
  else if 1 / 2 < r then f + 1
  else if f % 2 = 0 then f else f + 1

/-- Python `round(x, 2)` on the exact-rational model of the score arithmetic. -/
def pyRound2 (q : ℚ) : ℚ := (roundHalfEven (q * 100) : ℚ) / 100

/-- Result formatting of `SalesVectorDB.search_experiences` (`data_processor.py`
lines 176-186): each hit is decorated with `round((1 - distance) * 100, 2)`;
when the index response carries no `'distances'` key both the distance and the
score default to `0`.  A raised search error is caught and yields `[]`
(lines 191-193), modelled by the caller passing an empty input. -/
def search_experiences_format (has_distances : Bool) (raw : List RawResult) :
    List SearchResult :=
  raw.map fun r =>
    { id := r.id, document := r.document, metadata := r.metadata,
      distance := if has_distances then r.distance else 0,
      similarity_score :=
        if has_distances then pyRound2 ((1 - r.distance) * 100) else 0 }

/-- `roundHalfEven` stays within the floor/ceiling pair of its argument. -/
theorem roundHalfEven_bounds (q : ℚ) :
    (⌊q⌋ : ℤ) ≤ roundHalfEven q ∧ roundHalfEven q ≤ ⌊q⌋ + 1 := by
  unfold roundHalfEven
  by_cases h1 : q - (⌊q⌋ : ℚ) < 1 / 2
  · simp only [h1, if_true]
    exact ⟨le_refl _, by omega⟩
  · simp only [h1, if_false]
    by_cases h2 : (1 : ℚ) / 2 < q - (⌊q⌋ : ℚ)
    · simp only [h2, if_true]
      exact ⟨by omega, le_refl _⟩
    · simp only [h2, if_false]
      by_cases h3 : ⌊q⌋ % 2 = 0
      · simp only [h3, if_true]
        exact ⟨le_refl _, by omega⟩
      · simp only [h3, if_false]
        exact ⟨by omega, le_refl _⟩

/-- If the argument is an exact integer, `roundHalfEven` returns it. -/
theorem roundHalfEven_intCast (n : ℤ) : roundHalfEven (n : ℚ) = n := by
  unfold roundHalfEven
  simp only [Int.floor_intCast, sub_self]
  norm_num

/-- `roundHalfEven` maps `[0, 10000]` into `[0, 10000]`. -/
theorem roundHalfEven_range (y : ℚ) (h0 : 0 ≤ y) (h1 : y ≤ 10000) :
    (0 : ℤ) ≤ roundHalfEven y ∧ roundHalfEven y ≤ 10000 := by
  obtain ⟨hlo, hhi⟩ := roundHalfEven_bounds y
  have hfl : (0 : ℤ) ≤ ⌊y⌋ := Int.floor_nonneg.mpr h0
  refine ⟨le_trans hfl hlo, ?_⟩
  by_cases htop : ⌊y⌋ = 10000
  · have hyge : (10000 : ℚ) ≤ y := by
      have := Int.floor_le y
      rw [htop] at this
      exact_mod_cast this
    have hy : y = ((10000 : ℤ) : ℚ) := by
      push_cast
      exact le_antisymm h1 hyge
    rw [hy, roundHalfEven_intCast]
  · have hle : ⌊y⌋ ≤ 10000 := by
      have : ⌊y⌋ ≤ ⌊(10000 : ℚ)⌋ := Int.floor_le_floor h1
      simpa using this
    omega

/-- `pyRound2` maps `[0, 100]` into `[0, 100]`. -/
theorem pyRound2_range (q : ℚ) (h0 : 0 ≤ q) (h1 : q ≤ 100) :
    0 ≤ pyRound2 q ∧ pyRound2 q ≤ 100 := by
  have hy0 : 0 ≤ q * 100 := by positivity
  have hy1 : q * 100 ≤ 10000 := by nlinarith
  obtain ⟨hlo, hhi⟩ := roundHalfEven_range (q * 100) hy0 hy1
  unfold pyRound2
  constructor
  · positivity
  · rw [div_le_iff₀ (by norm_num : (0:ℚ) < 100)]
    calc ((roundHalfEven (q * 100)) : ℚ) ≤ ((10000 : ℤ) : ℚ) := by exact_mod_cast hhi
      _ = 100 * 100 := by norm_num

/-- A fixed concrete catalog record used by concrete evaluations. -/
def cMeta : ExpMeta :=
  { id := "exp1".toList, title := "River Rafting".toList,
    description := "White water rafting on the Ganges with certified guides.".toList,
    category := "Adventure".toList, location := "Rishikesh".toList,
    budget := "5000".toList, source_row := 0 }

/-- A raw hit whose reported distance is `2` (the far end of a cosine-distance
index, attainable for opposite embeddings). -/
def rawDist2 : RawResult :=
  { id := "exp_exp1".toList, document := [], metadata := cMeta, distance := 2 }

/-- C3 counterexample: with reported distance `2` the formatted score is `-100`,
so it does not lie in `[0, 100]` — the conversion never clamps. -/
theorem c3_score_counterexample :
    (search_experiences_format true [rawDist2]).map
        (fun r => r.similarity_score) = [-100] ∧
      ¬ (∀ r ∈ search_experiences_format true [rawDist2],
          0 ≤ r.similarity_score ∧ r.similarity_score ≤ 100) := by
  have hval : pyRound2 ((1 - (2:ℚ)) * 100) = -100 := by
    have h : ((1 : ℚ) - 2) * 100 * 100 = ((-10000 : ℤ) : ℚ) := by norm_num
    unfold pyRound2
    rw [h, roundHalfEven_intCast]
    norm_num
  constructor
  · simp [search_experiences_format, rawDist2, hval]
  · intro hall
    have hmem := List.mem_map_of_mem
      (fun r : RawResult =>
        ({ id := r.id, document := r.document, metadata := r.metadata,
           distance := if true = true then r.distance else 0,
           similarity_score :=
             if true = true then pyRound2 ((1 - r.distance) * 100) else 0 } : SearchResult))
      (List.mem_singleton.mpr (rfl : rawDist2 = rawDist2))
    have h0 := (hall _ hmem).1
    simp only [if_true] at h0
    rw [show rawDist2.distance = 2 from rfl, hval] at h0
    norm_num at h0

/-- C3 (amended): every formatted candidate's score equals
`round((1 - distance) * 100, 2)` computed from the reported distance, and the
score lies in `[0, 100]` whenever the reported distance lies in `[0, 1]`. -/
theorem c3_similarity_score (raw : List RawResult)
    (r : SearchResult) (hr : r ∈ search_experiences_format true raw) :
    r.similarity_score = pyRound2 ((1 - r.distance) * 100) ∧
      (0 ≤ r.distance → r.distance ≤ 1 →
        0 ≤ r.similarity_score ∧ r.similarity_score ≤ 100) := by
  unfold search_experiences_format at hr
  obtain ⟨r0, _, hr0⟩ := List.mem_map.mp hr
  subst hr0
  simp only [if_true]
  refine ⟨by trivial, fun hd0 hd1 => ?_⟩
  simp only at hd0 hd1
  exact pyRound2_range _ (by nlinarith) (by nlinarith)

/-- Witness for C3 at reported distance `1/2`: the score is `50`, inside `[0, 100]`. -/
theorem c3_similarity_score_witness :
    ∃ r ∈ search_experiences_format true
        [{ id := "exp_exp1".toList, document := [], metadata := cMeta,
            distance := 1/2 }],
      r.similarity_score = pyRound2 ((1 - r.distance) * 100) ∧
        0 ≤ r.similarity_score ∧ r.similarity_score ≤ 100 := by
  refine ⟨_, List.mem_singleton.mpr rfl, ?_⟩
  have h := c3_similarity_score
    [{ id := "exp_exp1".toList, document := [], metadata := cMeta, distance := 1/2 }]
    _ (List.mem_singleton.mpr rfl)
  exact ⟨h.1, h.2 (by norm_num) (by norm_num)⟩

/-! ## Candidate preparation (`_generate_experience_response`, `chatbot.py`
lines 210-221, identical in `chabot.py` lines 256-267) -/

/-- Lookup in an insertion-ordered dict modelled as an association list. -/
def dictGet? (m : List (Str × SearchResult)) (k : Str) : Option SearchResult :=
  (m.find? fun p => p.1 == k).map fun p => p.2

/-- One iteration of the `unique_experiences` loop: Python dict assignment —
a new key is appended, an existing key is overwritten in place — guarded by
`exp_id not in unique or result.similarity_score > unique[exp_id].similarity_score`. -/
def dedupe_step (m : List (Str × SearchResult)) (result : SearchResult) :
    List (Str × SearchResult) :=
  match dictGet? m result.metadata.id with
  | none => m ++ [(result.metadata.id, result)]
  | some prev =>
      if prev.similarity_score < result.similarity_score then
        m.map fun p =>
          if p.1 == result.metadata.id then (result.metadata.id, result) else p
      else m

/-- The `unique_experiences` dict after the whole loop. -/
def unique_experiences (rs : List SearchResult) : List (Str × SearchResult) :=
  rs.foldl dedupe_step []

/-- `top_experiences`: the dict's values sorted by similarity score descending
(Python `sorted(..., reverse=True)` is a stable sort) truncated to `MAX_RESULTS`. -/
def top_experiences (rs : List SearchResult) : List SearchResult :=
  (((unique_experiences rs).map fun p => p.2).mergeSort
      fun a b => decide (b.similarity_score ≤ a.similarity_score)).take MAX_RESULTS

/-- Invariant carried by the deduplication fold. -/
def DedupInv (processed : List SearchResult) (m : List (Str × SearchResult)) : Prop :=
  ((m.map fun p => p.1).Nodup) ∧
  (∀ p ∈ m, p.2.metadata.id = p.1 ∧ p.2 ∈ processed) ∧
  (∀ r ∈ processed, ∀ p ∈ m, r.metadata.id = p.1 →
      r.similarity_score ≤ p.2.similarity_score) ∧
  (∀ r ∈ processed, ∃ p ∈ m, p.1 = r.metadata.id)

/-- In a dict with duplicate-free keys, a successful lookup pins down the whole
entry carrying that key. -/
theorem dictGet?_unique (m : List (Str × SearchResult)) (k : Str) (v : SearchResult)
    (hnd : (m.map fun p => p.1).Nodup) (hget : dictGet? m k = some v) :
    ∀ p ∈ m, p.1 = k → p = (k, v) := by
  induction m with
  | nil => intro p hp; cases hp
  | cons q m ih =>
      intro p hp hpk
      unfold dictGet? at hget
      rcases List.mem_cons.mp hp with hpq | hpm
      · subst hpq
        rw [List.find?_cons_of_pos (p := fun r : Str × SearchResult => r.1 == k) _ (by simp [hpk])] at hget
        have hv : p.2 = v := by simpa using hget
        calc p = (p.1, p.2) := rfl
        _ = (k, v) := by rw [hpk, hv]
      · have hq : ¬ (q.1 == k) = true := by
          intro hbeq
          have hqk : q.1 = k := by simpa using hbeq
          have : k ∈ m.map fun p => p.1 := by
            rw [← hpk]
            exact List.mem_map_of_mem _ hpm
          rw [List.map_cons] at hnd
          exact (List.nodup_cons.mp hnd).1 (hqk ▸ this)
        rw [List.find?_cons_of_neg (p := fun r : Str × SearchResult => r.1 == k) _ hq] at hget
        exact ih ((List.nodup_cons.mp (by rwa [List.map_cons] at hnd)).2)
          (by unfold dictGet?; exact hget) p hpm hpk

/-- A failed lookup means no entry carries the key. -/
theorem dictGet?_none (m : List (Str × SearchResult)) (k : Str)
    (hget : dictGet? m k = none) : ∀ p ∈ m, p.1 ≠ k := by
  intro p hp hpk
  unfold dictGet? at hget
  rw [Option.map_eq_none'] at hget
  have := List.find?_eq_none.mp hget p hp
  simp [hpk] at this

/-- One deduplication step preserves the fold invariant. -/
theorem dedupe_step_inv (P : List SearchResult) (m : List (Str × SearchResult))
    (r : SearchResult) (h : DedupInv P m) : DedupInv (P ++ [r]) (dedupe_step m r) := by
  obtain ⟨hnd, hmem, hmax, hcov⟩ := h
  unfold dedupe_step
  cases hget : dictGet? m r.metadata.id with
  | none =>
      have habs := dictGet?_none m r.metadata.id hget
      refine ⟨?_, ?_, ?_, ?_⟩
      · rw [List.map_append]
        simp only [List.map_cons, List.map_nil]
        refine (List.perm_append_singleton _ _).nodup_iff.mpr
          (List.nodup_cons.mpr ⟨?_, hnd⟩)
        intro hmem2
        obtain ⟨p, hp, hpk⟩ := List.mem_map.mp hmem2
        exact habs p hp hpk
      · intro p hp
        rcases List.mem_append.mp hp with hpm | hpr
        · obtain ⟨h1, h2⟩ := hmem p hpm
          exact ⟨h1, List.mem_append_left _ h2⟩
        · rw [List.mem_singleton] at hpr
          subst hpr
          exact ⟨rfl, List.mem_append_right _ (List.mem_singleton.mpr rfl)⟩
      · intro q hq p hp hqk
        rcases List.mem_append.mp hq with hqP | hqr
        · rcases List.mem_append.mp hp with hpm | hpr
          · exact hmax q hqP p hpm hqk
          · rw [List.mem_singleton] at hpr
            subst hpr
            obtain ⟨pc, hpc, hpck⟩ := hcov q hqP
            exact absurd (hpck.trans hqk) (habs pc hpc)
        · rw [List.mem_singleton] at hqr
          subst hqr
          rcases List.mem_append.mp hp with hpm | hpr
          · exact absurd hqk.symm (habs p hpm)
          · rw [List.mem_singleton] at hpr
            subst hpr
            exact le_refl _
      · intro q hq
        rcases List.mem_append.mp hq with hqP | hqr
        · obtain ⟨p, hp, hpk⟩ := hcov q hqP
          exact ⟨p, List.mem_append_left _ hp, hpk⟩
        · rw [List.mem_singleton] at hqr
          subst hqr
          exact ⟨(q.metadata.id, q),
            List.mem_append_right _ (List.mem_singleton.mpr rfl), rfl⟩
  | some prev =>
      have huniq := dictGet?_unique m r.metadata.id prev hnd hget
      have hentry : (r.metadata.id, prev) ∈ m := by
        unfold dictGet? at hget
        cases hfind : m.find? fun p => p.1 == r.metadata.id with
        | none => rw [hfind] at hget; cases hget
        | some p0 =>
            rw [hfind] at hget
            have hp0 : p0 ∈ m := List.mem_of_find?_eq_some hfind
            have hk : p0.1 = r.metadata.id := by
              have := List.find?_some hfind
              simpa using this
            have hh : p0 = (r.metadata.id, prev) := by
              have h2 : p0.2 = prev := by simpa using hget
              calc p0 = (p0.1, p0.2) := rfl
              _ = (r.metadata.id, prev) := by rw [hk, h2]
            rwa [hh] at hp0
      by_cases hlt : prev.similarity_score < r.similarity_score
      · simp only [hlt, if_true]
        refine ⟨?_, ?_, ?_, ?_⟩
        · rw [List.map_map]
          have hcg : ∀ p ∈ m,
              ((fun p : Str × SearchResult => p.1) ∘ fun p =>
                if p.1 == r.metadata.id then (r.metadata.id, r) else p) p = p.1 := by
            intro p _
            simp only [Function.comp]
            by_cases hbeq : (p.1 == r.metadata.id) = true
            · rw [if_pos hbeq]
              exact (by simpa using hbeq : p.1 = r.metadata.id).symm
            · rw [if_neg hbeq]
          rw [List.map_congr_left hcg]
          exact hnd
        · intro pr hpr
          obtain ⟨p, hp, hrepl⟩ := List.mem_map.mp hpr
          subst hrepl
          by_cases hbeq : (p.1 == r.metadata.id) = true
          · rw [if_pos hbeq]
            exact ⟨rfl, List.mem_append_right _ (List.mem_singleton.mpr rfl)⟩
          · rw [if_neg hbeq]
            obtain ⟨h1, h2⟩ := hmem p hp
            exact ⟨h1, List.mem_append_left _ h2⟩
        · intro q hq pr hpr hqk
          obtain ⟨p, hp, hrepl⟩ := List.mem_map.mp hpr
          subst hrepl
          rcases List.mem_append.mp hq with hqP | hqr
          · by_cases hbeq : (p.1 == r.metadata.id) = true
            · rw [if_pos hbeq] at hqk ⊢
              have hpk : p.1 = r.metadata.id := by simpa using hbeq
              have hpval : p = (r.metadata.id, prev) := huniq p hp hpk
              have hqprev : q.similarity_score ≤ prev.similarity_score := by
                have hmx := hmax q hqP p hp (by rw [hpk]; exact hqk)
                rwa [hpval] at hmx
              exact le_of_lt (lt_of_le_of_lt hqprev hlt)
            · rw [if_neg hbeq] at hqk ⊢
              exact hmax q hqP p hp hqk
          · rw [List.mem_singleton] at hqr
            subst hqr
            by_cases hbeq : (p.1 == q.metadata.id) = true
            · rw [if_pos hbeq]
            · rw [if_neg hbeq] at hqk ⊢
              exact absurd (by simpa using hqk.symm) hbeq
        · intro q hq
          rcases List.mem_append.mp hq with hqP | hqr
          · obtain ⟨p, hp, hpk⟩ := hcov q hqP
            have hmm := List.mem_map_of_mem
              (fun p : Str × SearchResult =>
                if p.1 == r.metadata.id then (r.metadata.id, r) else p) hp
            refine ⟨if p.1 == r.metadata.id then (r.metadata.id, r) else p,
              hmm, ?_⟩
            by_cases hbeq : (p.1 == r.metadata.id) = true
            · rw [if_pos hbeq]
              exact (by simpa using hbeq : p.1 = r.metadata.id).symm.trans hpk
            · rw [if_neg hbeq]
              exact hpk
          · rw [List.mem_singleton] at hqr
            subst hqr
            have hmm := List.mem_map_of_mem
              (fun p : Str × SearchResult =>
                if p.1 == q.metadata.id then (q.metadata.id, q) else p) hentry
            have heq : (fun p : Str × SearchResult =>
                if p.1 == q.metadata.id then (q.metadata.id, q) else p)
                  (q.metadata.id, prev) = (q.metadata.id, q) := by simp
            rw [heq] at hmm
            exact ⟨(q.metadata.id, q), hmm, rfl⟩
      · simp only [hlt, if_false]
        refine ⟨hnd, ?_, ?_, ?_⟩
        · intro p hp
          obtain ⟨h1, h2⟩ := hmem p hp
          exact ⟨h1, List.mem_append_left _ h2⟩
        · intro q hq p hp hqk
          rcases List.mem_append.mp hq with hqP | hqr
          · exact hmax q hqP p hp hqk
          · rw [List.mem_singleton] at hqr
            subst hqr
            have hpval : p = (q.metadata.id, prev) := huniq p hp hqk.symm
            rw [hpval]
            exact le_of_not_lt hlt
        · intro q hq
          rcases List.mem_append.mp hq with hqP | hqr
          · exact hcov q hqP
          · rw [List.mem_singleton] at hqr
            subst hqr
            exact ⟨(q.metadata.id, prev), hentry, rfl⟩

/-- The whole deduplication fold establishes the invariant. -/
theorem dedupe_fold_inv (rs : List SearchResult) :
    DedupInv rs (unique_experiences rs) := by
  have key : ∀ (l : List SearchResult) (P : List SearchResult)
      (m : List (Str × SearchResult)), DedupInv P m →
        DedupInv (P ++ l) (l.foldl dedupe_step m) := by
    intro l
    induction l with
    | nil => intro P m h; simpa using h
    | cons r l ih =>
        intro P m h
        have := ih (P ++ [r]) (dedupe_step m r) (dedupe_step_inv P m r h)
        simpa [List.append_assoc] using this
  have h0 : DedupInv [] [] := by
    refine ⟨List.nodup_nil, ?_, ?_, ?_⟩ <;> intro p hp <;> cases hp
  simpa using key rs [] [] h0

/-- A candidate with similarity score `72.5`. -/
def expDup725 : SearchResult :=
  { id := "exp_exp1".toList, document := [], metadata := cMeta, distance := 0,
    similarity_score := 72.5 }

/-- A second candidate with the same id and similarity score `88.0`. -/
def expDup880 : SearchResult :=
  { id := "exp_exp1".toList, document := [], metadata := cMeta, distance := 0,
    similarity_score := 88 }

/-- C8: candidate preparation keeps at most `MAX_RESULTS = 3` survivors, sorted
by similarity score descending; every survivor comes from the input and carries
the maximal score among input candidates with its id; survivor ids are pairwise
distinct; and on the concrete duplicate pair with scores `72.5` and `88.0` only
the `88.0` instance survives deduplication. -/
theorem c8_candidate_preparation (rs : List SearchResult) :
    (top_experiences rs).length ≤ MAX_RESULTS ∧
    (top_experiences rs).Pairwise
      (fun a b => b.similarity_score ≤ a.similarity_score) ∧
    (∀ x ∈ top_experiences rs, x ∈ rs ∧
        ∀ r ∈ rs, r.metadata.id = x.metadata.id →
          r.similarity_score ≤ x.similarity_score) ∧
    ((top_experiences rs).map fun x => x.metadata.id).Nodup ∧
    (unique_experiences [expDup725, expDup880]).map (fun p => p.2) = [expDup880] := by
  obtain ⟨hnd, hmem, hmax, hcov⟩ := dedupe_fold_inv rs
  have hperm := List.mergeSort_perm
    ((unique_experiences rs).map fun p => p.2)
    (fun a b : SearchResult => decide (b.similarity_score ≤ a.similarity_score))
  refine ⟨List.length_take_le _ _, ?_, ?_, ?_, ?_⟩
  · have hsorted := @List.sorted_mergeSort SearchResult
      (fun a b : SearchResult => decide (b.similarity_score ≤ a.similarity_score))
      (fun a b c hab hbc => decide_eq_true
        (le_trans (of_decide_eq_true hbc) (of_decide_eq_true hab)))
      (fun a b => by
        rcases le_total b.similarity_score a.similarity_score with h | h
        · simp [h]
        · simp [h])
      ((unique_experiences rs).map fun p => p.2)
    have hs2 := hsorted.imp fun {a b} hab => of_decide_eq_true hab
    exact List.Pairwise.sublist (List.take_sublist _ _) hs2
  · intro x hx
    have hx1 : x ∈ ((unique_experiences rs).map fun p => p.2).mergeSort
        (fun a b : SearchResult => decide (b.similarity_score ≤ a.similarity_score)) :=
      List.mem_of_mem_take hx
    have hx2 := hperm.mem_iff.mp hx1
    obtain ⟨p, hp, hpx⟩ := List.mem_map.mp hx2
    obtain ⟨hpid, hpP⟩ := hmem p hp
    constructor
    · rw [← hpx]; exact hpP
    · intro r hr hrid
      have := hmax r hr p hp (by rw [hrid, ← hpx]; exact hpid)
      rw [← hpx]
      exact this
  · have hvals : (((unique_experiences rs).map fun p => p.2).map
        fun x => x.metadata.id) = (unique_experiences rs).map fun p => p.1 := by
      rw [List.map_map]
      exact List.map_congr_left fun p hp => (hmem p hp).1
    have hvnd : (((unique_experiences rs).map fun p => p.2).map
        fun x => x.metadata.id).Nodup := by rw [hvals]; exact hnd
    have hsnd := (List.Perm.nodup_iff
      (hperm.map fun x : SearchResult => x.metadata.id)).mpr hvnd
    exact List.Nodup.sublist
      ((List.take_sublist _ _).map fun x : SearchResult => x.metadata.id) hsnd
  · simp [unique_experiences, dedupe_step, dictGet?, expDup725, expDup880, cMeta,
      show (72.5 : ℚ) < 88 by norm_num]

/-- Witness for C8 on the concrete duplicate pair: preparation yields exactly
the `88.0` instance, which comes from the input and dominates the `72.5` one. -/
theorem c8_candidate_preparation_witness :
    top_experiences [expDup725, expDup880] = [expDup880] ∧
    expDup880 ∈ ([expDup725, expDup880] : List SearchResult) ∧
    expDup725.similarity_score ≤ expDup880.similarity_score := by
  have h := c8_candidate_preparation [expDup725, expDup880]
  have htop : top_experiences [expDup725, expDup880] = [expDup880] := by
    unfold top_experiences
    rw [h.2.2.2.2, List.mergeSort_singleton]
    rfl
  have hmem880 : expDup880 ∈ top_experiences [expDup725, expDup880] := by
    rw [htop]
    exact List.mem_singleton.mpr rfl
  exact ⟨htop, (h.2.2.1 expDup880 hmem880).1,
    (h.2.2.1 expDup880 hmem880).2 expDup725 (List.mem_cons_self _ _) rfl⟩

/-! ## JSON extraction (`_extract_json_safely`, `chatbot.py` lines 481-503) -/

/-- Does the string ahead match `\s*``` ` (some prefix of whitespace followed by
a triple backtick fence)? -/
def closeTicksAhead : Str → Bool
  | [] => false
  | c :: t => "```".toList.isPrefixOf (c :: t) || (pyIsSpace c && closeTicksAhead t)

/-- Index of the first `'}'` that is followed by `\s*``` ` (the lazy `.*?` of
`r'```json\s*(\{.*?\})\s*```'` stops at the earliest viable closing brace). -/
def findCloseBrace : Str → Option Nat
  | [] => none
  | c :: t =>
      if c == rbr && closeTicksAhead t then some 0
      else (findCloseBrace t).map (· + 1)

/-- Attempt the fenced-block pattern right after an occurrence of `"```json"`:
skip whitespace, require `'{'`, then find the lazy closing brace; group 1 is the
brace-delimited span. -/
def tryJsonBlockAt (s : Str) : Option Str :=
  match s.dropWhile pyIsSpace with
  | [] => none
  | c :: body =>
      if c == lbr then
        (findCloseBrace body).map fun j => lbr :: (body.take j ++ [rbr])
      else none

/-- `re.search(r'```json\s*(\{.*?\})\s*```', text, re.DOTALL)`, returning group 1:
scan for the leftmost `"```json"` occurrence at which the rest of the pattern
succeeds. -/
def findJsonCodeBlock : Str → Option Str
  | [] => none
  | c :: t =>
      if "```json".toList.isPrefixOf (c :: t) then
        match tryJsonBlockAt ((c :: t).drop 7) with
        | some g => some g
        | none => findJsonCodeBlock t
      else findJsonCodeBlock t

/-- `re.search(r'\{.*\}', text, re.DOTALL)`, returning group 0: the greedy span
from the first `'{'` to the last `'}'`, provided the latter comes after. -/
def findBraceSpan (text : Str) : Option Str :=
  match List.findIdx? (fun c => c == lbr) text with
  | none => none
  | some i =>
      match List.findIdx? (fun c => c == rbr) text.reverse with
      | none => none
      | some jr =>
          let j := text.length - 1 - jr
          if i < j then some ((text.drop i).take (j - i + 1)) else none

/-- `ProfessionalSalesAI._extract_json_safely` (`chatbot.py` lines 481-503):
three extraction tiers tried in order, each guarded by a swallowed-exception
`json.loads` attempt.  The external `json.loads` is modelled as an arbitrary
total parser `parse` (a raised `JSONDecodeError` is `none`). -/
def extract_json_safely {α : Type} (parse : Str → Option α) (text : Str) :
    Option α :=
  match (findJsonCodeBlock text).bind parse with
  | some v => some v
  | none =>
    match (findBraceSpan text).bind parse with
    | some v => some v
    | none => parse text

/-- A successful fenced-block extraction is brace-delimited. -/
theorem tryJsonBlockAt_shape (s g : Str) (h : tryJsonBlockAt s = some g) :
    g.head? = some lbr ∧ g.getLast? = some rbr := by
  unfold tryJsonBlockAt at h
  split at h
  · cases h
  · split at h
    · rw [Option.map_eq_some'] at h
      obtain ⟨j, _, hg⟩ := h
      subst hg
      refine ⟨rfl, ?_⟩
      rw [← List.cons_append]
      exact List.getLast?_concat _
    · cases h

/-- A successful tier-1 match is brace-delimited. -/
theorem findJsonCodeBlock_shape :
    ∀ (s g : Str), findJsonCodeBlock s = some g →
      g.head? = some lbr ∧ g.getLast? = some rbr := by
  intro s
  induction s with
  | nil => intro g h; cases h
  | cons c t ih =>
      intro g h
      unfold findJsonCodeBlock at h
      by_cases hpre : ("```json".toList.isPrefixOf (c :: t)) = true
      · rw [if_pos hpre] at h
        cases htry : tryJsonBlockAt ((c :: t).drop 7) with
        | some g2 =>
            rw [htry] at h
            exact (Option.some_inj.mp h) ▸ tryJsonBlockAt_shape _ _ htry
        | none =>
            rw [htry] at h
            exact ih g h
      · rw [if_neg hpre] at h
        exact ih g h

/-- C10: the JSON extraction helper is total — for every input and every total
parser it yields `some` value or `none` (a swallowed failure), tries the three
tiers strictly in order (fenced ```json block, then greedy first-`{` to
last-`}` span, then whole text), returns the first tier whose span parses, is
`none` exactly when all three tiers fail, and a tier-1 span is brace-delimited. -/
theorem c10_extract_json_total {α : Type} (parse : Str → Option α) (text : Str) :
    (extract_json_safely parse text = none ∨
      ∃ v, extract_json_safely parse text = some v) ∧
    (∀ v, (findJsonCodeBlock text).bind parse = some v →
      extract_json_safely parse text = some v) ∧
    ((findJsonCodeBlock text).bind parse = none →
      ∀ v, (findBraceSpan text).bind parse = some v →
        extract_json_safely parse text = some v) ∧
    ((findJsonCodeBlock text).bind parse = none →
      (findBraceSpan text).bind parse = none →
        extract_json_safely parse text = parse text) ∧
    (extract_json_safely parse text = none ↔
      ((findJsonCodeBlock text).bind parse = none ∧
        (findBraceSpan text).bind parse = none ∧ parse text = none)) ∧
    (∀ g, findJsonCodeBlock text = some g →
      g.head? = some lbr ∧ g.getLast? = some rbr) := by
  refine ⟨?_, ?_, ?_, ?_, ?_, fun g hg => findJsonCodeBlock_shape text g hg⟩
  · cases h : extract_json_safely parse text with
    | none => exact Or.inl rfl
    | some v => exact Or.inr ⟨v, rfl⟩
  · intro v hv
    unfold extract_json_safely
    rw [hv]
  · intro h1 v hv
    unfold extract_json_safely
    rw [h1, hv]
  · intro h1 h2
    unfold extract_json_safely
    rw [h1, h2]
  · unfold extract_json_safely
    cases h1 : (findJsonCodeBlock text).bind parse with
    | some v => simp
    | none =>
        cases h2 : (findBraceSpan text).bind parse with
        | some v => simp
        | none => simp

/-- A concrete fenced response text: `"```json {a} ```"`. -/
def fencedText : Str :=
  "```json ".toList ++ (lbr :: 'a' :: [rbr]) ++ " ```".toList

/-- A concrete parser accepting exactly the span `"{a}"`. -/
def parseOnlyBody (s : Str) : Option Nat :=
  if s = lbr :: 'a' :: [rbr] then some 7 else none

/-- Witness for C10: on the concrete fenced text, tier 1 fires and the helper
returns the parsed value. -/
theorem c10_extract_json_total_witness :
    extract_json_safely parseOnlyBody fencedText = some 7 :=
  (c10_extract_json_total parseOnlyBody fencedText).2.1 7 (by decide)

/-! ## Conversation data model (`conversation_memory_manager.py`, `chatbot.py`) -/

/-- Message role. -/
inductive Role
  | user
  | assistant
deriving DecidableEq

/-- One recommendation item inside a persisted payload (the per-experience dict
built by `_verify_experience_data` / `_create_fallback_response`). -/
structure ExpItem where
  id : Str
  title : Str
  category : Str
  location : Str
  budget : Str
  description : Str
  similarity_score : ℚ
  why_perfect : Str
  highlights : List Str
  discussed_at : Option Nat
deriving DecidableEq

/-- A recommendation payload (`experience_data` dict). -/
structure ExpPayload where
  conversational_intro : Str
  experiences : List ExpItem
  conversational_closing : Str
deriving DecidableEq

/-- One generated experience entry as extracted from model JSON: only the keys
`_verify_experience_data` reads; a missing key is `none`, and a `highlights`
value that is not a list is also modelled as `none` (the `isinstance` guard). -/
structure AiExp where
  id : Option Str
  why_perfect : Option Str
  highlights : Option (List Str)

/-- Extracted model JSON, restricted to the keys the engine reads. -/
structure AiData where
  conversational_intro : Option Str
  experiences : Option (List AiExp)
  conversational_closing : Option Str

/-- One conversation turn dict; `experience_data`/`data_source` keys exist only
on (chatbot.py) assistant turns, absent keys are `none`. -/
structure TurnMsg where
  role : Role
  content : Str
  timestamp : Nat
  experience_data : Option ExpPayload
  data_source : Option Str
deriving DecidableEq

/-- The `_metadata` block written by `save_conversation`
(`conversation_memory_manager.py` lines 39-44). -/
structure Metadata where
  last_updated : Nat
  client_id : Str
  total_exchanges : Nat
  session_count : Nat
deriving DecidableEq

/-- The whole per-client conversation record (`_get_default_conversation_data`,
`conversation_memory_manager.py` lines 74-91, plus the `_metadata` key added on
save). -/
structure ConvData where
  history : List TurnMsg
  user_profile : UserProfile
  session_count : Nat
  first_interaction : Nat
  last_interaction : Nat
  total_messages : Nat
  previously_discussed_experiences : List ExpItem
  metadata : Option Metadata
deriving DecidableEq

/-- The stats dict of `get_conversation_stats`. -/
structure StatsR where
  total_messages : Nat
  session_count : Nat
  first_interaction : Nat
  last_interaction : Nat
  previously_discussed : Nat
  known_interests : Nat
deriving DecidableEq

/-- Default conversation record for an unseen client. -/
def default_conversation_data (now : Nat) : ConvData :=
  { history := [], user_profile := default_user_profile, session_count := 0,
    first_interaction := now, last_interaction := now, total_messages := 0,
    previously_discussed_experiences := [], metadata := none }

/-- `ConversationMemory.save_conversation` (`conversation_memory_manager.py`
lines 33-52): stamps a `_metadata` block — whose `session_count` is read from
the TOP-LEVEL `session_count` key plus one — and overwrites the stored pickle.
A write failure is caught and logged, so the model always succeeds. -/
def save_conversation (now : Nat) (client_id : Str) (conversation_data : ConvData)
    (_store : Option ConvData) : ConvData × Option ConvData :=
  let d := { conversation_data with metadata := some (.mk now client_id
      conversation_data.history.length (conversation_data.session_count + 1)) }
  (d, some d)

/-- `ConversationMemory.load_conversation`: stored record if present, else the
default (also on a read error, which is caught). -/
def load_conversation (now : Nat) (store : Option ConvData) : ConvData :=
  match store with
  | some d => d
  | none => default_conversation_data now

/-- `ConversationMemory.get_conversation_stats` (lines 103-114). -/
def get_conversation_stats (now : Nat) (store : Option ConvData) : StatsR :=
  let d := load_conversation now store
  { total_messages := d.total_messages, session_count := d.session_count,
    first_interaction := d.first_interaction, last_interaction := d.last_interaction,
    previously_discussed := d.previously_discussed_experiences.length,
    known_interests := d.user_profile.interests.length }

/-- The history cap applied inside `_save_to_memory` (`chatbot.py` lines
589-590): `history = history[-MAX_CONVERSATION_HISTORY:]` when over the cap. -/
def truncate_history (h : List TurnMsg) : List TurnMsg :=
  if h.length > MAX_CONVERSATION_HISTORY then
    h.drop (h.length - MAX_CONVERSATION_HISTORY)
  else h

/-- The assistant turn dict appended by `chatbot.py`'s `_save_to_memory`. -/
def mk_assistant_turn (now : Nat) (assistant_response : Str)
    (experience_data : Option ExpPayload) : TurnMsg :=
  { role := .assistant, content := assistant_response, timestamp := now,
    experience_data := experience_data,
    data_source := some (if experience_data.isSome then "database_verified".toList
      else "conversational".toList) }

/-- `ProfessionalSalesAI._save_to_memory` (`chatbot.py` lines 578-601): append
the assistant turn, cap the history, refresh `total_messages` /
`last_interaction`, stamp `discussed_at` on payload items and collect the new
ones, then persist.  (In the source the `discussed_at` stamp mutates the shared
payload dicts; only that key is affected, none of the identifying fields.) -/
def save_to_memory (now : Nat) (client_id : Str) (_user_input : Str)
    (assistant_response : Str) (experience_data : Option ExpPayload)
    (conv : ConvData) (store : Option ConvData) : ConvData × Option ConvData :=
  let conv := { conv with history :=
      conv.history ++ [mk_assistant_turn now assistant_response experience_data] }
  let conv := { conv with history := truncate_history conv.history }
  let conv := { conv with total_messages := conv.history.length,
                          last_interaction := now }
  let conv := match experience_data with
    | some pd => { conv with previously_discussed_experiences :=
        (pd.experiences.foldl (fun l e =>
          if l.contains { e with discussed_at := some now } then l
          else l ++ [{ e with discussed_at := some now }])
          conv.previously_discussed_experiences) }
    | none => conv
  save_conversation now client_id conv store

/-! ## Deterministic text synthesis (`chatbot.py` lines 392-448) -/

/-- Python `str.split(sep)` for a single-character separator (keeps empties;
`"".split('.') == ['']`). -/
def pySplitOn (sep : Char) : Str → List Str
  | [] => [[]]
  | c :: t =>
      if c = sep then [] :: pySplitOn sep t
      else
        match pySplitOn sep t with
        | [] => [[c]]
        | w :: ws => (c :: w) :: ws

/-- Python `str(n)` for a natural number. -/
def natToStr (n : Nat) : Str := (toString n).toList

/-- Python `s.endswith(('.', '!', '?'))`. -/
def endsSentence (s : Str) : Bool :=
  match s.getLast? with
  | some c => c = '.' || c = '!' || c = '?'
  | none => false

/-- `_generate_professional_why_perfect` (`chatbot.py` lines 392-411).  The
source reads the fields through `dict.get` with defaults that can never fire
for records built by the data processor, so plain field access is used. -/
def generate_professional_why_perfect (experience : ExpMeta) (user_input : Str) :
    Str :=
  let category := experience.category
  let location := experience.location
  let description := pyLower experience.description
  let user_input_lower := pyLower user_input
  if containsSub "adventure".toList (pyLower category) ||
      containsSub "thrill".toList description then
    "Perfect for adventure enthusiasts! This ".toList ++ pyLower category ++
      " experience in ".toList ++ location ++
      " delivers excitement and unforgettable thrills.".toList
  else if containsSub "spa".toList description ||
      containsSub "relax".toList description ||
      containsSub "wellness".toList (pyLower category) then
    "Ideal for unwinding and rejuvenation! This ".toList ++ location ++
      " experience offers the peaceful escape with professional care.".toList
  else if containsSub "romantic".toList description ||
      containsSub "couple".toList description then
    "Perfect romantic getaway! This ".toList ++ pyLower category ++
      " experience in ".toList ++ location ++
      " creates intimate moments and lasting memories.".toList
  else if containsSub "cultural".toList (pyLower category) ||
      containsSub "heritage".toList description then
    "Immerse yourself in authentic culture! This ".toList ++ location ++
      " experience showcases rich heritage and traditions.".toList
  else if containsSub (pyLower location) user_input_lower then
    "Excellent choice for ".toList ++ location ++ "! This ".toList ++
      pyLower category ++
      " experience offers unique value perfectly matching your destination preference.".toList
  else
    "Great match for your interests! This ".toList ++ pyLower category ++
      " experience in ".toList ++ location ++
      " offers authentic value and memorable moments.".toList

/-- The per-sentence cleanup of the `_generate_professional_highlights` loop. -/
def highlightClean (sentence : Str) : Str :=
  let clean_sentence := pyStrip ((pySplitOn '.' sentence).headD [])
  let clean_sentence := if clean_sentence.length < 30 then
      clean_sentence ++ " for an unforgettable experience".toList
    else clean_sentence
  let clean_sentence := if !endsSentence clean_sentence then
      clean_sentence ++ ['.']
    else clean_sentence
  clean_sentence.take 200

/-- `_generate_professional_highlights` (`chatbot.py` lines 413-448). -/
def generate_professional_highlights (description category : Str) : List Str :=
  if description.isEmpty || (pyStrip description).length < 20 then
    ["Authentic ".toList ++ pyLower category ++
        " experience curated by local experts.".toList,
     "Professional service and guidance throughout your journey.".toList,
     "Complete details available upon inquiry for personalized planning.".toList]
  else
    let sentences := ((pySplitOn '.' description).map pyStrip).filter
      fun s => 15 < s.length
    let highlights := (sentences.take 3).map highlightClean
    let highlights := if highlights.length < 1 then
        highlights ++ ["Professionally curated ".toList ++ pyLower category ++
          " experience with attention to detail.".toList]
      else highlights
    let highlights := if highlights.length < 2 then
        highlights ++
          ["Complete arrangements handled for a hassle-free and memorable journey.".toList]
      else highlights
    let highlights := if highlights.length < 3 then
        highlights ++
          ["Expert guidance and support available throughout your experience.".toList]
      else highlights
    highlights.take 3

/-! ## Verification pass (`_verify_experience_data`, `chatbot.py` lines 329-390) -/

/-- The `db_lookup` dict comprehension (line 332): id → metadata; on duplicate
ids the later entry overwrites, hence the search from the end. -/
def db_lookup (database_results : List SearchResult) (k : Str) : Option ExpMeta :=
  (database_results.reverse.find? fun r => r.metadata.id == k).map
    fun r => r.metadata

/-- The body of the verification loop for one generated item: drop it if its id
is missing from the candidate dict, otherwise rebuild every identifying field
from the database record (`budget` gets the `'₹'` prefix, line 347), keep the
generated `why_perfect`/`highlights` only within sanity bounds, else synthesize
them deterministically. -/
def verify_one (history : List TurnMsg) (database_results : List SearchResult)
    (exp : AiExp) : Option ExpItem :=
  match exp.id with
  | none => none
  | some exp_id =>
    match db_lookup database_results exp_id with
    | none => none
    | some db_exp =>
      let similarity := match database_results.find?
          (fun r => r.metadata.id == exp_id) with
        | some r => r.similarity_score
        | none => 0
      let why_raw := pyStrip (exp.why_perfect.getD [])
      let why := if 20 < why_raw.length ∧ why_raw.length < 300 then why_raw
        else generate_professional_why_perfect db_exp
          ((history.getLast?).elim [] fun t => t.content)
      let highlights := match exp.highlights with
        | some hs =>
          if hs.length ≥ 2 then
            let clean_highlights := (hs.take 3).foldl (fun acc h =>
              let first_sentence := pyStrip ((pySplitOn '.' (pyStrip h)).headD [])
              if 10 < first_sentence.length then
                acc ++ [(if !endsSentence first_sentence then
                    first_sentence ++ ['.'] else first_sentence).take 200]
              else acc) []
            if clean_highlights.length ≥ 2 then clean_highlights.take 3
            else generate_professional_highlights db_exp.description db_exp.category
          else generate_professional_highlights db_exp.description db_exp.category
        | none => generate_professional_highlights db_exp.description db_exp.category
      some { id := db_exp.id, title := db_exp.title, category := db_exp.category,
             location := db_exp.location, budget := '₹' :: db_exp.budget,
             description := db_exp.description, similarity_score := similarity,
             why_perfect := why, highlights := highlights, discussed_at := none }

/-- `_verify_experience_data` (`chatbot.py` lines 329-390). -/
def verify_experience_data (history : List TurnMsg) (ai_data : AiData)
    (database_results : List SearchResult) : ExpPayload :=
  { conversational_intro := ai_data.conversational_intro.getD
      "Here are personalized experiences for you:".toList,
    experiences := (ai_data.experiences.getD []).filterMap
      (verify_one history database_results),
    conversational_closing := ai_data.conversational_closing.getD
      "Which experience excites you most?".toList }

/-! ## Session orchestration (`detect_intent_and_respond` and the response
generators, `chatbot.py` lines 65-327, 450-479) -/

/-- External-world inputs for one turn.  Each generator call either returns raw
text (`some`) or raises (`none`, caught by the source's handlers); `parse`
models `json.loads`; `search_response` models the index reply (`none` = query
raised, caught inside `search_experiences`; the flag is the `'distances'` key
presence). -/
structure TurnEnv where
  user_input : Str
  now : Nat
  search_response : Option (Bool × List RawResult)
  intent_response : Option Str
  casual_response : Option Str
  exp_response : Option Str
  parse : Str → Option AiData

/-- `SalesVectorDB.search_experiences` (`data_processor.py` lines 169-193)
end to end: a raised query error is caught and yields `[]`. -/
def search_experiences (response : Option (Bool × List RawResult)) :
    List SearchResult :=
  match response with
  | none => []
  | some (has_distances, raw) => search_experiences_format has_distances raw

/-- `_detect_intent` (`chatbot.py` lines 108-155): parse the raw generator
reply; any exception (`none`) defaults to casual chat. -/
def detect_intent (intent_response : Option Str) : Str :=
  match intent_response with
  | none => "casual_chat".toList
  | some t =>
      let intent := pyLower (pyStrip t)
      if containsSub "experience_request".toList intent ||
          containsSub "experience".toList intent then
        "experience_request".toList
      else "casual_chat".toList

/-- The fixed farewell reply (`chatbot.py` line 75). -/
def farewell_text : Str :=
  "Thank you for exploring experiences with me! Hope you find the perfect adventure. Have a wonderful day!".toList

/-- The canned casual fallback reply (`chatbot.py` line 190). -/
def casual_fallback_text : Str :=
  "Hello! I".toList ++ apos ::
    "m here to help you discover verified experiences from our database. What would you like to explore today?".toList

/-- The clarifying no-results reply (`chatbot.py` lines 198-205). -/
def no_results_response (user_input : Str) : Str :=
  "I searched our database but couldn".toList ++ apos ::
    "t find experiences matching \"".toList ++ user_input ++
    "\".\n\nTo help you better, could you tell me:\n- What type of activity interests you? (adventure, relaxation, culture, nature)\n- Your preferred location?\n- Your approximate budget?\n\nThis will help me find verified experiences from our database.".toList

/-- The deterministic payload built by `_create_fallback_response`
(`chatbot.py` lines 459-476). -/
def fallback_payload (user_input : Str) (database_results : List SearchResult) :
    ExpPayload :=
  { conversational_intro := "I".toList ++ apos ::
      "ve found these verified experiences for your interests:".toList,
    experiences := database_results.map fun exp =>
      { id := exp.metadata.id, title := exp.metadata.title,
        category := exp.metadata.category, location := exp.metadata.location,
        budget := '₹' :: exp.metadata.budget,
        description := exp.metadata.description,
        similarity_score := exp.similarity_score,
        why_perfect := generate_professional_why_perfect exp.metadata user_input,
        highlights := generate_professional_highlights exp.metadata.description
          exp.metadata.category,
        discussed_at := none },
    conversational_closing :=
      "Which of these verified experiences would you like to explore first?".toList }

/-- `_create_fallback_response` (`chatbot.py` lines 450-479): fully
deterministic reply and payload from the prepared candidates, persisted. -/
def create_fallback_response (now : Nat) (client_id : Str) (user_input : Str)
    (database_results : List SearchResult) (conv : ConvData)
    (store : Option ConvData) :
    (Str × Option ExpPayload) × ConvData × Option ConvData :=
  let conversational_text := "Based on your preferences, I".toList ++ apos ::
      "ve found ".toList ++ natToStr database_results.length ++
      " exceptional experience(s): ".toList ++
      List.intercalate ", ".toList
        (database_results.map fun e => e.metadata.title) ++
      ". Each one is specially selected from our verified database!".toList
  let experience_data := fallback_payload user_input database_results
  let r := save_to_memory now client_id user_input conversational_text
    (some experience_data) conv store
  ((conversational_text, some experience_data), r.1, r.2)

/-- `_generate_experience_response` (`chatbot.py` lines 192-327).  The prompt
strings feed only the external generator (whose reply is `env.exp_response`)
and are not modelled; the over-fetch `n_results=10` parameterizes only the
external query.  The generator raising (`env.exp_response = none`), or
extraction failing, or the extracted JSON lacking an `experiences` key, all
fall back to `_create_fallback_response`. -/
def generate_experience_response (env : TurnEnv) (client_id : Str)
    (conv : ConvData) (store : Option ConvData) :
    (Str × Option ExpPayload) × ConvData × Option ConvData :=
  let search_results := search_experiences env.search_response
  if search_results.isEmpty then
    let txt := no_results_response env.user_input
    let r := save_to_memory env.now client_id env.user_input txt none conv store
    ((txt, none), r.1, r.2)
  else
    let top := top_experiences search_results
    match env.exp_response with
    | none => create_fallback_response env.now client_id env.user_input top conv store
    | some raw =>
        let response_text := pyStrip raw
        match extract_json_safely env.parse response_text with
        | some experience_data =>
            if experience_data.experiences.isSome then
              let verified_data := verify_experience_data conv.history
                experience_data top
              let conversational_text := verified_data.conversational_intro ++
                " I found: ".toList ++
                List.intercalate ", ".toList
                  (verified_data.experiences.map fun e => e.title) ++
                ". ".toList ++ verified_data.conversational_closing
              let r := save_to_memory env.now client_id env.user_input
                conversational_text (some verified_data) conv store
              ((conversational_text, some verified_data), r.1, r.2)
            else create_fallback_response env.now client_id env.user_input top
              conv store
        | none => create_fallback_response env.now client_id env.user_input top
            conv store

/-- `_generate_casual_response` (`chatbot.py` lines 157-190): on success the
stripped reply is persisted; a generator exception returns the canned greeting
WITHOUT saving. -/
def generate_casual_response (env : TurnEnv) (client_id : Str) (conv : ConvData)
    (store : Option ConvData) : Str × ConvData × Option ConvData :=
  match env.casual_response with
  | some raw =>
      let response_text := pyStrip raw
      let r := save_to_memory env.now client_id env.user_input response_text
        none conv store
      (response_text, r.1, r.2)
  | none => (casual_fallback_text, conv, store)

/-- The user turn dict appended at the top of `detect_intent_and_respond`. -/
def mk_user_turn (env : TurnEnv) : TurnMsg :=
  { role := .user, content := env.user_input, timestamp := env.now,
    experience_data := none, data_source := none }

/-- `detect_intent_and_respond` (`chatbot.py` lines 65-106): append the user
turn, short-circuit on exit, extract preferences, classify, dispatch.  All
modelled failure points (generator calls, index query, JSON parse) are handled
by inner handlers, so the outer `except` (line 102) is unreachable in the
model. -/
def detect_intent_and_respond (env : TurnEnv) (client_id : Str) (conv : ConvData)
    (store : Option ConvData) :
    (Str × Option ExpPayload × Bool) × ConvData × Option ConvData :=
  let conv := { conv with history := conv.history ++ [mk_user_turn env] }
  if check_exit_intent env.user_input then
    let r := save_to_memory env.now client_id env.user_input farewell_text
      none conv store
    ((farewell_text, none, true), r.1, r.2)
  else
    let conv := { conv with user_profile :=
        extract_user_preferences env.user_input conv.user_profile }
    if detect_intent env.intent_response = "experience_request".toList then
      let r := generate_experience_response env client_id conv store
      ((r.1.1, r.1.2, false), r.2.1, r.2.2)
    else
      let r := generate_casual_response env client_id conv store
      ((r.1, none, false), r.2.1, r.2.2)

/-- A sequence of turns processed for one client, threading the in-memory
record and the persistent store. -/
def run_turns (client_id : Str) (envs : List TurnEnv) (conv : ConvData)
    (store : Option ConvData) : ConvData × Option ConvData :=
  envs.foldl (fun st env =>
    (detect_intent_and_respond env client_id st.1 st.2).2) (conv, store)

namespace Chabot

/-- `ProfessionalSalesAI._save_to_memory` of the variant `chabot.py` (lines
507-538): unlike `chatbot.py`, it appends the USER turn again — it was already
appended by `detect_intent_and_respond` (line 82) — followed by the assistant
turn (whose dict carries no `data_source` key), then caps, refreshes counters,
collects discussed experiences (no `discussed_at` stamp) and persists. -/
def save_to_memory (now : Nat) (client_id : Str) (user_input : Str)
    (assistant_response : Str) (experience_data : Option ExpPayload)
    (conv : ConvData) (store : Option ConvData) : ConvData × Option ConvData :=
  let conv := { conv with history := conv.history ++
      ([{ role := .user, content := user_input, timestamp := now,
          experience_data := none, data_source := none },
        { role := .assistant, content := assistant_response, timestamp := now,
          experience_data := experience_data, data_source := none }] : List TurnMsg) }
  let conv := { conv with history := truncate_history conv.history }
  let conv := { conv with total_messages := conv.history.length,
                          last_interaction := now }
  let conv := match experience_data with
    | some pd => { conv with previously_discussed_experiences :=
        (pd.experiences.foldl (fun l e =>
          if l.contains e then l else l ++ [e])
          conv.previously_discussed_experiences) }
    | none => conv
  save_conversation now client_id conv store

/-- The non-exit casual-success path of `chabot.py`'s
`detect_intent_and_respond` (lines 71-132 with `_generate_casual_response`,
lines 188-227): append the user turn, extract preferences, then persist the
stripped generator reply through this variant's `_save_to_memory`. -/
def process_casual_turn (now : Nat) (client_id user_input response_text : Str)
    (conv : ConvData) (store : Option ConvData) : ConvData × Option ConvData :=
  let conv := { conv with history := conv.history ++
      ([{ role := .user, content := user_input, timestamp := now,
          experience_data := none, data_source := none }] : List TurnMsg) }
  let conv := { conv with user_profile :=
      extract_user_preferences user_input conv.user_profile }
  Chabot.save_to_memory now client_id user_input (pyStrip response_text) none
    conv store

end Chabot

/-! ## Helper lemmas about `save_to_memory` -/

/-- The persisted/in-memory history after a (chatbot.py) save is the capped
append of the assistant turn. -/
theorem save_to_memory_history (now : Nat) (client_id ui ar : Str)
    (ed : Option ExpPayload) (conv : ConvData) (store : Option ConvData) :
    (save_to_memory now client_id ui ar ed conv store).1.history =
      truncate_history (conv.history ++ [mk_assistant_turn now ar ed]) := by
  cases ed <;> rfl

/-- `total_messages` is refreshed to the capped history length on every save. -/
theorem save_to_memory_total (now : Nat) (client_id ui ar : Str)
    (ed : Option ExpPayload) (conv : ConvData) (store : Option ConvData) :
    (save_to_memory now client_id ui ar ed conv store).1.total_messages =
      (truncate_history (conv.history ++ [mk_assistant_turn now ar ed])).length := by
  cases ed <;> rfl

/-- A save always persists exactly the returned in-memory record. -/
theorem save_to_memory_store (now : Nat) (client_id ui ar : Str)
    (ed : Option ExpPayload) (conv : ConvData) (store : Option ConvData) :
    (save_to_memory now client_id ui ar ed conv store).2 =
      some (save_to_memory now client_id ui ar ed conv store).1 := by
  cases ed <;> rfl

/-- A save never changes the top-level `session_count`. -/
theorem save_to_memory_session (now : Nat) (client_id ui ar : Str)
    (ed : Option ExpPayload) (conv : ConvData) (store : Option ConvData) :
    (save_to_memory now client_id ui ar ed conv store).1.session_count =
      conv.session_count := by
  cases ed <;> rfl

/-- Length of the capped history. -/
theorem truncate_history_length (h : List TurnMsg) :
    (truncate_history h).length = min h.length MAX_CONVERSATION_HISTORY := by
  unfold truncate_history
  by_cases hlen : h.length > MAX_CONVERSATION_HISTORY
  · rw [if_pos hlen, List.length_drop]
    omega
  · rw [if_neg hlen]
    omega

/-- The capped history is a suffix of the original. -/
theorem truncate_history_suffix (h : List TurnMsg) :
    ∃ pre, pre ++ truncate_history h = h := by
  unfold truncate_history
  by_cases hlen : h.length > MAX_CONVERSATION_HISTORY
  · rw [if_pos hlen]
    exact ⟨h.take (h.length - MAX_CONVERSATION_HISTORY), List.take_append_drop _ _⟩
  · rw [if_neg hlen]
    exact ⟨[], rfl⟩

/-- C6: capping is a save invariant — after any save the history holds exactly
the most recent `min (n+1) 50` turns: its length is the old length plus the
appended assistant turn capped at `MAX_CONVERSATION_HISTORY = 50`, and it is a
suffix of the appended history (oldest turns evicted first, survivors in
order). -/
theorem c6_history_fifo_bound :
    (∀ h : List TurnMsg,
      (truncate_history h).length = min h.length MAX_CONVERSATION_HISTORY ∧
        ∃ pre, pre ++ truncate_history h = h) ∧
    (∀ (now : Nat) (client_id user_input assistant_response : Str)
        (experience_data : Option ExpPayload) (conv : ConvData)
        (store : Option ConvData),
      (save_to_memory now client_id user_input assistant_response
          experience_data conv store).1.history.length =
        min (conv.history.length + 1) MAX_CONVERSATION_HISTORY ∧
      ∃ pre, pre ++ (save_to_memory now client_id user_input assistant_response
          experience_data conv store).1.history =
        conv.history ++ [mk_assistant_turn now assistant_response experience_data]) := by
  refine ⟨fun h => ⟨truncate_history_length h, truncate_history_suffix h⟩,
    fun now client_id ui ar ed conv store => ⟨?_, ?_⟩⟩
  · rw [save_to_memory_history, truncate_history_length, List.length_append]
    rfl
  · rw [save_to_memory_history]
    exact truncate_history_suffix _

/-- Existential packaging of the save lemmas, as used per control-flow branch. -/
theorem save_shape (now : Nat) (client_id ui ar : Str) (ed : Option ExpPayload)
    (conv : ConvData) (store : Option ConvData) :
    ∃ a : TurnMsg,
      (save_to_memory now client_id ui ar ed conv store).1.history =
        truncate_history (conv.history ++ [a]) ∧
      (save_to_memory now client_id ui ar ed conv store).1.total_messages =
        (save_to_memory now client_id ui ar ed conv store).1.history.length ∧
      (save_to_memory now client_id ui ar ed conv store).1.session_count =
        conv.session_count ∧
      (save_to_memory now client_id ui ar ed conv store).2 =
        some (save_to_memory now client_id ui ar ed conv store).1 :=
  ⟨mk_assistant_turn now ar ed, save_to_memory_history now client_id ui ar ed conv store,
    by rw [save_to_memory_total, save_to_memory_history],
    save_to_memory_session now client_id ui ar ed conv store,
    save_to_memory_store now client_id ui ar ed conv store⟩

/-- Control-flow summary of one turn in `detect_intent_and_respond`: either the
turn ends in a save — the in-memory history is the capped user+assistant append
and exactly this record is persisted — or the turn is a non-exit casual turn
whose generator raised: the user turn stays in memory but nothing is persisted. -/
theorem turn_shape (env : TurnEnv) (client_id : Str) (conv : ConvData)
    (store : Option ConvData) :
    (∃ a : TurnMsg,
      (detect_intent_and_respond env client_id conv store).2.1.history =
        truncate_history ((conv.history ++ [mk_user_turn env]) ++ [a]) ∧
      (detect_intent_and_respond env client_id conv store).2.1.total_messages =
        (detect_intent_and_respond env client_id conv store).2.1.history.length ∧
      (detect_intent_and_respond env client_id conv store).2.1.session_count =
        conv.session_count ∧
      (detect_intent_and_respond env client_id conv store).2.2 =
        some (detect_intent_and_respond env client_id conv store).2.1) ∨
    ((detect_intent_and_respond env client_id conv store).2.1.history =
        conv.history ++ [mk_user_turn env] ∧
      (detect_intent_and_respond env client_id conv store).2.2 = store ∧
      check_exit_intent env.user_input = false ∧
      detect_intent env.intent_response ≠ "experience_request".toList ∧
      env.casual_response = none) := by
  unfold detect_intent_and_respond
  by_cases hexit : check_exit_intent env.user_input = true
  · rw [if_pos hexit]
    dsimp only
    exact Or.inl (save_shape _ _ _ _ _ _ _)
  · rw [if_neg hexit]
    by_cases hintent : detect_intent env.intent_response = "experience_request".toList
    · rw [if_pos hintent]
      unfold generate_experience_response
      by_cases hempty : (search_experiences env.search_response).isEmpty = true
      · rw [if_pos hempty]
        dsimp only
        exact Or.inl (save_shape _ _ _ _ _ _ _)
      · rw [if_neg hempty]
        cases hexp : env.exp_response with
        | none =>
            unfold create_fallback_response
            dsimp only
            exact Or.inl (save_shape _ _ _ _ _ _ _)
        | some raw =>
            dsimp only
            cases hparse : extract_json_safely env.parse (pyStrip raw) with
            | some experience_data =>
                dsimp only
                by_cases hkey : experience_data.experiences.isSome = true
                · rw [if_pos hkey]
                  dsimp only
                  exact Or.inl (save_shape _ _ _ _ _ _ _)
                · rw [if_neg hkey]
                  unfold create_fallback_response
                  dsimp only
                  exact Or.inl (save_shape _ _ _ _ _ _ _)
            | none =>
                dsimp only
                unfold create_fallback_response
                dsimp only
                exact Or.inl (save_shape _ _ _ _ _ _ _)
    · rw [if_neg hintent]
      unfold generate_casual_response
      cases hcas : env.casual_response with
      | some raw =>
          dsimp only
          exact Or.inl (save_shape _ _ _ _ _ _ _)
      | none =>
          dsimp only
          exact Or.inr ⟨rfl, rfl, by simpa using hexit, hintent, rfl⟩

/-- The next-to-last appended turn always survives the cap (the cap keeps 50 ≥ 2
turns). -/
theorem mem_truncate_penult (l : List TurnMsg) (u a : TurnMsg) :
    u ∈ truncate_history ((l ++ [u]) ++ [a]) := by
  unfold truncate_history
  by_cases hlen : ((l ++ [u]) ++ [a]).length > MAX_CONVERSATION_HISTORY
  · rw [if_pos hlen, List.append_assoc]
    have hk : (l ++ ([u] ++ [a])).length - MAX_CONVERSATION_HISTORY ≤ l.length := by
      simp only [List.length_append, List.length_cons, List.length_nil]
      unfold MAX_CONVERSATION_HISTORY
      omega
    rw [List.drop_append_of_le_length hk]
    simp
  · rw [if_neg hlen]
    simp

/-- The environment of a casual turn whose generator raises. -/
def cEnvFail : TurnEnv :=
  { user_input := "hello".toList, now := 0, search_response := none,
    intent_response := some "casual_chat".toList, casual_response := none,
    exp_response := none, parse := fun _ => none }

/-- C5 counterexample: on a non-exit casual turn whose generator raises, the
user's turn is appended in memory but the turn ends with NOTHING persisted —
the store still holds `none` — so the "state persisted by the end of every
turn, including exception turns" part of the claim is false. -/
theorem c5_persist_counterexample :
    (detect_intent_and_respond cEnvFail "client1".toList
        (default_conversation_data 0) none).2.1.history = [mk_user_turn cEnvFail] ∧
    (detect_intent_and_respond cEnvFail "client1".toList
        (default_conversation_data 0) none).2.2 = none ∧
    ¬ ((detect_intent_and_respond cEnvFail "client1".toList
          (default_conversation_data 0) none).2.2 =
        some (detect_intent_and_respond cEnvFail "client1".toList
          (default_conversation_data 0) none).2.1) := by
  refine ⟨by decide, by decide, by decide⟩

/-- C5 (amended): on every turn the user's turn is recorded in the in-memory
history before the turn ends (no path loses it), and the updated state is
persisted by the end of the turn on every path EXCEPT a non-exit casual turn
whose generator raises (there the reply is canned and nothing is saved; the
user turn is persisted only by the next successful save). -/
theorem c5_user_turn_recorded (env : TurnEnv) (client_id : Str) (conv : ConvData)
    (store : Option ConvData) :
    mk_user_turn env ∈
      (detect_intent_and_respond env client_id conv store).2.1.history ∧
    ((check_exit_intent env.user_input = true ∨
        detect_intent env.intent_response = "experience_request".toList ∨
        env.casual_response.isSome = true) →
      (detect_intent_and_respond env client_id conv store).2.2 =
        some (detect_intent_and_respond env client_id conv store).2.1) := by
  rcases turn_shape env client_id conv store with
    ⟨a, hh, _, _, hs⟩ | ⟨hh, _, hex, hint, hcas⟩
  · constructor
    · rw [hh]
      exact mem_truncate_penult _ _ _
    · intro _
      exact hs
  · constructor
    · rw [hh]
      simp
    · rintro (h | h | h)
      · rw [hex] at h; cases h
      · exact absurd h hint
      · rw [hcas] at h; cases h

/-- Witness for C5 at a concrete exit turn (`"bye"`): the user turn is in the
in-memory history and the state is persisted. -/
theorem c5_user_turn_recorded_witness :
    mk_user_turn { cEnvFail with user_input := "bye".toList } ∈
      (detect_intent_and_respond { cEnvFail with user_input := "bye".toList }
        "client1".toList (default_conversation_data 0) none).2.1.history ∧
    (detect_intent_and_respond { cEnvFail with user_input := "bye".toList }
        "client1".toList (default_conversation_data 0) none).2.2 =
      some (detect_intent_and_respond { cEnvFail with user_input := "bye".toList }
        "client1".toList (default_conversation_data 0) none).2.1 :=
  ⟨(c5_user_turn_recorded _ _ _ _).1,
    (c5_user_turn_recorded _ _ _ _).2 (Or.inl (by decide))⟩

/-- Qualifying turn: non-exit, and not the casual-generator-failure path. -/
def SavingTurn (e : TurnEnv) : Prop :=
  check_exit_intent e.user_input = false ∧
    (detect_intent e.intent_response = "experience_request".toList ∨
      e.casual_response.isSome = true)

/-- Over qualifying turns the history grows by exactly two turns per message,
capped at `MAX_CONVERSATION_HISTORY`. -/
theorem run_turns_len (client_id : Str) :
    ∀ (envs : List TurnEnv) (conv : ConvData) (store : Option ConvData),
      (∀ e ∈ envs, SavingTurn e) →
      conv.history.length ≤ MAX_CONVERSATION_HISTORY →
      (run_turns client_id envs conv store).1.history.length =
        min (conv.history.length + 2 * envs.length) MAX_CONVERSATION_HISTORY := by
  intro envs
  induction envs with
  | nil =>
      intro conv store _ hle
      show conv.history.length = min (conv.history.length + 2 * 0) MAX_CONVERSATION_HISTORY
      omega
  | cons e rest ih =>
      intro conv store hall hle
      have he := hall e (List.mem_cons_self _ _)
      have hrest : ∀ x ∈ rest, SavingTurn x :=
        fun x hx => hall x (List.mem_cons_of_mem _ hx)
      rcases turn_shape e client_id conv store with
        ⟨a, hh, _, _, _⟩ | ⟨_, _, hex, hint, hcas⟩
      · have hstep : (detect_intent_and_respond e client_id conv store).2.1.history.length =
            min (conv.history.length + 2) MAX_CONVERSATION_HISTORY := by
          rw [hh, truncate_history_length]
          simp only [List.length_append, List.length_cons, List.length_nil]
        have hrun : run_turns client_id (e :: rest) conv store =
            run_turns client_id rest
              (detect_intent_and_respond e client_id conv store).2.1
              (detect_intent_and_respond e client_id conv store).2.2 := rfl
        rw [hrun, ih _ _ hrest (by rw [hstep]; unfold MAX_CONVERSATION_HISTORY; omega),
          hstep]
        unfold MAX_CONVERSATION_HISTORY
        simp only [List.length_cons]
        rcases Nat.le_total (conv.history.length + 2) 50 with hc | hc
        · rw [Nat.min_eq_left hc]
          omega
        · rw [Nat.min_eq_right hc]
          omega
      · rcases he.2 with h | h
        · exact absurd h hint
        · rw [hcas] at h
          cases h

/-- Over a nonempty sequence of qualifying turns, the last save persists exactly
the in-memory record, whose `total_messages` equals its history length. -/
theorem run_turns_persist (client_id : Str) :
    ∀ (envs : List TurnEnv) (conv : ConvData) (store : Option ConvData),
      (∀ e ∈ envs, SavingTurn e) → envs ≠ [] →
      (run_turns client_id envs conv store).2 =
        some (run_turns client_id envs conv store).1 ∧
      (run_turns client_id envs conv store).1.total_messages =
        (run_turns client_id envs conv store).1.history.length := by
  intro envs
  induction envs with
  | nil => intro conv store _ hne; exact absurd rfl hne
  | cons e rest ih =>
      intro conv store hall _
      have he := hall e (List.mem_cons_self _ _)
      have hrest : ∀ x ∈ rest, SavingTurn x :=
        fun x hx => hall x (List.mem_cons_of_mem _ hx)
      have hrun : run_turns client_id (e :: rest) conv store =
          run_turns client_id rest
            (detect_intent_and_respond e client_id conv store).2.1
            (detect_intent_and_respond e client_id conv store).2.2 := rfl
      cases rest with
      | nil =>
          rcases turn_shape e client_id conv store with
            ⟨a, _, ht, _, hs⟩ | ⟨_, _, hex, hint, hcas⟩
          · rw [hrun]
            exact ⟨hs, ht⟩
          · rcases he.2 with h | h
            · exact absurd h hint
            · rw [hcas] at h
              cases h
      | cons e2 rest2 =>
          rw [hrun]
          exact ih _ _ hrest (by simp)

/-- C2: (i) for the strict variant (`chatbot.py`), after `N` qualifying non-exit
turns from the default state the stats report
`total_messages = min (2 N) 50` — one user and one assistant turn per message,
capped; (ii) the live variant (`chabot.py`, imported by
`websocket_manager.py`) re-appends the user turn inside `_save_to_memory`, so a
single processed casual turn already records THREE messages, not two. -/
theorem c2_stats_two_per_turn :
    (∀ (client_id : Str) (now0 now1 : Nat) (envs : List TurnEnv),
      (∀ e ∈ envs, SavingTurn e) →
      (get_conversation_stats now1
          (run_turns client_id envs (default_conversation_data now0) none).2).total_messages =
        min (2 * envs.length) MAX_CONVERSATION_HISTORY) ∧
    (Chabot.process_casual_turn 1 "client1".toList "hello".toList
        "hi there".toList (default_conversation_data 0) none).1.total_messages = 3 ∧
    (Chabot.process_casual_turn 1 "client1".toList "hello".toList
        "hi there".toList (default_conversation_data 0) none).1.history.length = 3 := by
  refine ⟨?_, by decide, by decide⟩
  intro client_id now0 now1 envs hall
  cases envs with
  | nil =>
      show (default_conversation_data now0).total_messages =
        min (2 * 0) MAX_CONVERSATION_HISTORY
      rfl
  | cons e rest =>
      obtain ⟨hs, ht⟩ := run_turns_persist client_id (e :: rest)
        (default_conversation_data now0) none hall (by simp)
      have hlen := run_turns_len client_id (e :: rest)
        (default_conversation_data now0) none hall (by simp [default_conversation_data, MAX_CONVERSATION_HISTORY])
      unfold get_conversation_stats load_conversation
      rw [hs]
      simpa [default_conversation_data] using ht.trans hlen

/-- The environment of a casual turn whose generator succeeds. -/
def cEnvCasualOk : TurnEnv :=
  { cEnvFail with casual_response := some "hi there".toList }

/-- Witness for C2 part (i) at one concrete qualifying turn: the stats report
two messages. -/
theorem c2_stats_two_per_turn_witness :
    (get_conversation_stats 1 (run_turns "client1".toList [cEnvCasualOk]
        (default_conversation_data 0) none).2).total_messages = 2 := by
  have h := c2_stats_two_per_turn.1 "client1".toList 0 1 [cEnvCasualOk] (by
    intro e he
    rw [List.mem_singleton] at he
    subst he
    exact ⟨by decide, Or.inr (by decide)⟩)
  simpa using h

/-! ## Session counter (C4) and verification invariant (C1) -/

/-- `K` consecutive `save_conversation` calls for one client, threading the
in-memory record (as the engine does via `self.conversation_data`) and the
store. -/
def iterate_saves (now : Nat) (client_id : Str) :
    Nat → ConvData × Option ConvData → ConvData × Option ConvData
  | 0, st => st
  | k + 1, st => iterate_saves now client_id k (save_conversation now client_id st.1 st.2)

/-- Any positive number of saves starting from a record with top-level
`session_count = 0` and empty history leaves the top-level counter at `0` and
the `_metadata` counter at `1`: `save_conversation` increments the TOP-LEVEL
key it never writes back. -/
theorem iterate_saves_session (now : Nat) (client_id : Str) :
    ∀ (k : Nat) (d : ConvData) (s0 : Option ConvData),
      d.session_count = 0 → d.history = [] →
      (iterate_saves now client_id (k + 1) (d, s0)).1.session_count = 0 ∧
      (iterate_saves now client_id (k + 1) (d, s0)).1.history = [] ∧
      (iterate_saves now client_id (k + 1) (d, s0)).1.metadata =
        some (Metadata.mk now client_id 0 1) ∧
      (iterate_saves now client_id (k + 1) (d, s0)).2 =
        some (iterate_saves now client_id (k + 1) (d, s0)).1 := by
  intro k
  induction k with
  | zero =>
      intro d s0 hs hh
      unfold iterate_saves iterate_saves save_conversation
      refine ⟨hs, hh, ?_, rfl⟩
      rw [show d.history.length = 0 by rw [hh]; rfl, hs]
  | succ k ih =>
      intro d s0 hs hh
      have hstep : iterate_saves now client_id (k + 1 + 1) (d, s0) =
          iterate_saves now client_id (k + 1)
            (save_conversation now client_id d s0) := rfl
      rw [hstep]
      exact ih _ _ hs hh

/-- C4: the session counter never reaches `K` — after any `K ≥ 1` consecutive
saves from the default record, the persisted `_metadata.session_count` is still
`1` (the increment reads the never-updated top-level key) and the stats
operation, which reads the top-level key, reports `0`. -/
theorem c4_session_counter_stuck (now : Nat) (client_id : Str) (k : Nat) :
    (iterate_saves now client_id (k + 1)
        (default_conversation_data now, none)).1.metadata =
      some (Metadata.mk now client_id 0 1) ∧
    (get_conversation_stats now
        (iterate_saves now client_id (k + 1)
          (default_conversation_data now, none)).2).session_count = 0 := by
  obtain ⟨hs, hh, hm, hst⟩ := iterate_saves_session now client_id k
    (default_conversation_data now) none rfl rfl
  refine ⟨hm, ?_⟩
  unfold get_conversation_stats load_conversation
  rw [hst]
  exact hs

/-- A retrieval candidate over the fixed record `cMeta` (whose budget string is
`"5000"`). -/
def cSearchResult : SearchResult :=
  { id := "exp_exp1".toList, document := [], metadata := cMeta, distance := 0,
    similarity_score := 90 }

/-- A generated payload referencing the retrieved id `"exp1"`. -/
def cAiData : AiData :=
  { conversational_intro := none,
    experiences := some [AiExp.mk (some "exp1".toList) none none],
    conversational_closing := none }

/-- C1 counterexample: the verified item's budget is `"₹5000"` — the `'₹'`
prefix added on line 347 of `chatbot.py` — which does NOT equal the retrieved
candidate's budget field `"5000"`, so the claim's budget-equality conjunct is
false. -/
theorem c1_budget_counterexample :
    ((verify_experience_data [] cAiData [cSearchResult]).experiences.map
        fun e => e.budget) = ['₹' :: "5000".toList] ∧
    ¬ (∀ item ∈ (verify_experience_data [] cAiData [cSearchResult]).experiences,
        ∃ r ∈ [cSearchResult], item.budget = r.metadata.budget) := by
  refine ⟨by decide, by decide⟩

/-- `filterMap` and `filter` agree in length when the guard matches `isSome`. -/
theorem length_filterMap_eq_filter {α β : Type} (f : α → Option β)
    (p : α → Bool) (h : ∀ a, (f a).isSome = p a) :
    ∀ l : List α, (l.filterMap f).length = (l.filter p).length := by
  intro l
  induction l with
  | nil => rfl
  | cons a l ih =>
      rw [List.filterMap_cons, List.filter_cons]
      have ha := h a
      cases hfa : f a with
      | some b =>
          rw [hfa] at ha
          rw [← ha]
          simp [ih]
      | none =>
          rw [hfa] at ha
          rw [← ha]
          simp [ih]

/-- An item survives verification exactly when its generated id is present and
occurs among the retrieved candidates. -/
theorem verify_one_isSome (history : List TurnMsg)
    (database_results : List SearchResult) (e : AiExp) :
    (verify_one history database_results e).isSome =
      (match e.id with
       | some i => database_results.any fun r => r.metadata.id == i
       | none => false) := by
  unfold verify_one
  cases hid : e.id with
  | none => rfl
  | some i =>
      dsimp only
      cases hlk : db_lookup database_results i with
      | none =>
          dsimp only
          simp only [Option.isSome_none]
          symm
          rw [List.any_eq_false]
          intro r hr
          unfold db_lookup at hlk
          rw [Option.map_eq_none'] at hlk
          have := List.find?_eq_none.mp hlk r (List.mem_reverse.mpr hr)
          simpa using this
      | some db_exp =>
          dsimp only
          simp only [Option.isSome_some]
          symm
          rw [List.any_eq_true]
          unfold db_lookup at hlk
          rw [Option.map_eq_some'] at hlk
          obtain ⟨r0, hfind, _⟩ := hlk
          have hp := List.find?_some hfind
          exact ⟨r0, List.mem_reverse.mp (List.mem_of_find?_eq_some hfind), hp⟩

/-- C1 (amended): every item of a verified payload traces back to a retrieved
candidate whose id, title, category, location and description it carries
verbatim, and whose budget it carries with a `'₹'` prefix; items whose id is
absent from the candidate set are dropped (the surviving count is exactly the
count of generated items whose id occurs among the candidates). -/
theorem c1_verification_fields (history : List TurnMsg) (ai_data : AiData)
    (database_results : List SearchResult) :
    (∀ item ∈ (verify_experience_data history ai_data database_results).experiences,
      ∃ r ∈ database_results,
        item.id = r.metadata.id ∧ item.title = r.metadata.title ∧
        item.category = r.metadata.category ∧ item.location = r.metadata.location ∧
        item.budget = '₹' :: r.metadata.budget ∧
        item.description = r.metadata.description) ∧
    (verify_experience_data history ai_data database_results).experiences.length =
      ((ai_data.experiences.getD []).filter fun e =>
        match e.id with
        | some i => database_results.any fun r => r.metadata.id == i
        | none => false).length := by
  constructor
  · intro item hitem
    unfold verify_experience_data at hitem
    obtain ⟨e, _, hfe⟩ := List.mem_filterMap.mp hitem
    unfold verify_one at hfe
    cases hid : e.id with
    | none => rw [hid] at hfe; cases hfe
    | some exp_id =>
        rw [hid] at hfe
        dsimp only at hfe
        cases hlk : db_lookup database_results exp_id with
        | none => rw [hlk] at hfe; cases hfe
        | some db_exp =>
            rw [hlk] at hfe
            unfold db_lookup at hlk
            rw [Option.map_eq_some'] at hlk
            obtain ⟨r0, hfind, hr0m⟩ := hlk
            refine ⟨r0, List.mem_reverse.mp (List.mem_of_find?_eq_some hfind),
              ?_, ?_, ?_, ?_, ?_, ?_⟩ <;>
              (rw [← Option.some_inj.mp hfe, ← hr0m])
  · unfold verify_experience_data
    exact length_filterMap_eq_filter _ _
      (verify_one_isSome history database_results) _

/-- Witness for C1: on the concrete payload/candidate pair, the surviving item
carries the candidate's fields (with the `'₹'`-prefixed budget). -/
theorem c1_verification_fields_witness :
    ∃ item ∈ (verify_experience_data [] cAiData [cSearchResult]).experiences,
      ∃ r ∈ [cSearchResult],
        item.id = r.metadata.id ∧ item.title = r.metadata.title ∧
        item.category = r.metadata.category ∧ item.location = r.metadata.location ∧
        item.budget = '₹' :: r.metadata.budget ∧
        item.description = r.metadata.description := by
  have hne : (verify_experience_data [] cAiData [cSearchResult]).experiences ≠ [] := by
    decide
  obtain ⟨item, hitem⟩ := List.exists_mem_of_ne_nil _ hne
  exact ⟨item, hitem,
    (c1_verification_fields [] cAiData [cSearchResult]).1 item hitem⟩
